import Mathlib

/-!
ArcScript: a shallow embedding of the ArcScript language core — lexer
(src/lexer.rs), recursive-descent parser (src/parser.rs), AST (src/ast.rs)
and tree-walking interpreter (src/interpreter.rs) — together with theorems
checking the specification's claims about it.

Modelling conventions:
* Rust `i64` is embedded as `Int`; no claim depends on wrap-around, and the
  source itself uses plain `+`/`-`/`*` (debug-trap / release-wrap).
  `i64` division and remainder are `Int.tdiv` / `Int.tmod` (truncation
  toward zero, remainder with the dividend's sign, as in Rust).
* Rust `f64` is embedded as `Rat` (exact rationals). Every claim that
  touches floats only depends on the `== 0.0` zero test, which agrees with
  the rational zero test (including `-0.0 == 0.0`); rounding of inexact
  operations and infinity/NaN are never reached on the paths the claims
  talk about, because the source raises its error before dividing.
* `HashMap<String, Value>` is embedded as an association list with
  insert-or-replace (`setA`); only `get`, `insert` and `len` are used by
  the source, and no claim depends on iteration order.
* Rust `&mut self.env` state is threaded explicitly: every evaluation
  function takes an `Environment` and returns the environment the
  interpreter's `self.env` holds when the function returns, on error paths
  as well (the source does not restore the environment on every error
  path, and that behaviour is preserved).
* Recursion through the AST and through function calls is made total with
  a fuel parameter: `evalN fuel` (and `parseN fuel` for the parser) build
  the evaluation functions where every call from one source function to
  another steps down one fuel level; `none` means the fuel ran out, which
  never happens for the concrete programs evaluated here.
-/

namespace ArcScript

/-! ## AST (src/ast.rs) -/

/-- `Literal` (ast.rs). `Float(f64)` is embedded as `Rat`. -/
inductive Literal where
  | int (i : Int)
  | float (f : Rat)
  | bool (b : Bool)
  | str (s : String)
  | nil
  deriving Repr, DecidableEq

/-- `UnaryOp` (ast.rs). -/
inductive UnaryOp where
  | negate
  | not
  deriving Repr, DecidableEq

/-- `BinaryOp` (ast.rs). -/
inductive BinaryOp where
  | add | sub | mul | div | mod
  | equal | notEqual
  | less | lessEqual | greater | greaterEqual
  | and | or
  deriving Repr, DecidableEq

mutual
/-- `Expr` (ast.rs). -/
inductive Expr where
  | literal (lit : Literal)
  | ident (name : String)
  | unary (op : UnaryOp) (expr : Expr)
  | binary (left : Expr) (op : BinaryOp) (right : Expr)
  | call (callee : Expr) (args : List Expr)
  | member (object : Expr) (field : String)
  | index (object : Expr) (index : Expr)
  | tableLiteral (fields : List TableField)
  deriving Repr

/-- `TableField` (ast.rs). -/
inductive TableField where
  | keyValue (key : String) (value : Expr)
  | value (expr : Expr)
  deriving Repr
end

mutual
/-- `Stmt` (ast.rs). `If/While/For/Break/Continue/Return` are renamed
`ifS/whileS/forS/breakS/continueS/returnS` (Lean keywords), and `For`'s
`end` field is renamed `stop`. -/
inductive Stmt where
  | varDecl (name : String) (init : Expr)
  | assignment (name : String) (value : Expr)
  | expr (e : Expr)
  | block (stmts : List Stmt)
  | ifS (condition : Expr) (thenBranch : Stmt)
        (elifBranches : List (Expr × Stmt)) (elseBranch : Option Stmt)
  | whileS (condition : Expr) (body : Stmt)
  | forS (varName : String) (start : Expr) (stop : Expr)
         (step : Option Expr) (body : Stmt)
  | breakS
  | continueS
  | returnS (e : Option Expr)
  | funcDecl (f : FuncDecl)
  | objectDecl (o : ObjectDecl)
  deriving Repr

/-- `FuncDecl` (ast.rs). `Param { name }` is embedded as the bare name, so
`params : Vec<Param>` becomes `List String`. -/
inductive FuncDecl where
  | mk (name : String) (params : List String) (body : Stmt)
  deriving Repr

/-- `EventDecl` (ast.rs). -/
inductive EventDecl where
  | mk (name : String) (params : List String) (body : Stmt)
  deriving Repr

/-- `ObjectDecl` (ast.rs). -/
inductive ObjectDecl where
  | mk (name : String) (members : List ObjectMember)
  deriving Repr

/-- `ObjectMember` (ast.rs). -/
inductive ObjectMember where
  | var (s : Stmt)
  | method (f : FuncDecl)
  | event (e : EventDecl)
  deriving Repr
end

/-- Projection for `FuncDecl.name`. -/
def FuncDecl.name : FuncDecl → String
  | .mk n _ _ => n

/-- Projection for `FuncDecl.params`. -/
def FuncDecl.params : FuncDecl → List String
  | .mk _ ps _ => ps

/-- Projection for `FuncDecl.body`. -/
def FuncDecl.body : FuncDecl → Stmt
  | .mk _ _ b => b

/-- `Program` (ast.rs). -/
structure Program where
  body : List Stmt
  deriving Repr

/-! ## Lexer (src/lexer.rs)

The source scans a `&[u8]` byte slice; we embed it as `List Char`. All
source texts the claims exercise are ASCII, where the two agree byte for
byte (a non-ASCII byte would fall into the unmatched-byte arm either way).
-/

/-- `TokenKind` (lexer.rs). -/
inductive TokenKind where
  | identifier | int | float | string
  | kwVar | kwFunc | kwObject | kwOn | kwIf | kwElif | kwElse
  | kwWhile | kwFor | kwDo | kwThen | kwEnd | kwReturn
  | kwBreak | kwContinue | kwTrue | kwFalse | kwNil
  | kwAnd | kwOr | kwNot
  | plus | minus | star | slash | percent
  | equal | equalEqual | bangEqual
  | less | lessEqual | greater | greaterEqual
  | plusEqual | minusEqual | starEqual | slashEqual
  | lParen | rParen | lBrace | rBrace | lBracket | rBracket
  | comma | dot | colon | semicolon
  | eof
  deriving Repr, DecidableEq

/-- Rust `derive(Debug)` name of a `TokenKind` variant, as interpolated by
`format!("... {:?}", kind)` in parser error messages. -/
def TokenKind.debugName : TokenKind → String
  | .identifier => "Identifier" | .int => "Int" | .float => "Float"
  | .string => "String"
  | .kwVar => "KwVar" | .kwFunc => "KwFunc" | .kwObject => "KwObject"
  | .kwOn => "KwOn" | .kwIf => "KwIf" | .kwElif => "KwElif"
  | .kwElse => "KwElse" | .kwWhile => "KwWhile" | .kwFor => "KwFor"
  | .kwDo => "KwDo" | .kwThen => "KwThen" | .kwEnd => "KwEnd"
  | .kwReturn => "KwReturn" | .kwBreak => "KwBreak"
  | .kwContinue => "KwContinue" | .kwTrue => "KwTrue"
  | .kwFalse => "KwFalse" | .kwNil => "KwNil"
  | .kwAnd => "KwAnd" | .kwOr => "KwOr" | .kwNot => "KwNot"
  | .plus => "Plus" | .minus => "Minus" | .star => "Star"
  | .slash => "Slash" | .percent => "Percent"
  | .equal => "Equal" | .equalEqual => "EqualEqual"
  | .bangEqual => "BangEqual"
  | .less => "Less" | .lessEqual => "LessEqual"
  | .greater => "Greater" | .greaterEqual => "GreaterEqual"
  | .plusEqual => "PlusEqual" | .minusEqual => "MinusEqual"
  | .starEqual => "StarEqual" | .slashEqual => "SlashEqual"
  | .lParen => "LParen" | .rParen => "RParen"
  | .lBrace => "LBrace" | .rBrace => "RBrace"
  | .lBracket => "LBracket" | .rBracket => "RBracket"
  | .comma => "Comma" | .dot => "Dot" | .colon => "Colon"
  | .semicolon => "Semicolon"
  | .eof => "Eof"

/-- `Token` (lexer.rs). -/
structure Token where
  kind : TokenKind
  lexeme : String
  line : Nat
  column : Nat
  deriving Repr, DecidableEq

/-- `Lexer` (lexer.rs): `source`/`pos` are embedded as the remaining input. -/
structure LexerState where
  rest : List Char
  line : Nat
  column : Nat
  deriving Repr, DecidableEq

/-- `Lexer::advance` — consume one char, updating line/column. -/
def LexerState.adv : LexerState → LexerState
  | ⟨[], l, c⟩ => ⟨[], l, c⟩
  | ⟨ch :: rest, l, c⟩ =>
      if ch = '\n' then ⟨rest, l + 1, 1⟩ else ⟨rest, l, c + 1⟩

/-- Body of the line-comment arm of `skip_whitespace_and_comments`:
consume while the next char is not a newline (the newline itself is left
for the outer loop's whitespace arm). -/
def skipLineComment : Nat → LexerState → LexerState
  | 0, st => st
  | n + 1, st =>
      match st.rest with
      | [] => st
      | ch :: _ => if ch = '\n' then st else skipLineComment n st.adv

/-- Body of the block-comment arm of `skip_whitespace_and_comments`:
consume until `*/` (consumed) or end of input (silently). -/
def skipBlockComment : Nat → LexerState → LexerState
  | 0, st => st
  | n + 1, st =>
      match st.rest with
      | [] => st
      | '*' :: '/' :: _ => st.adv.adv
      | _ :: _ => skipBlockComment n st.adv

/-- Loop of `Lexer::skip_whitespace_and_comments`. The fuel passed by
`skipWs` bounds the number of consumed chars, which suffices because every
iteration that does not exit consumes at least one char. -/
def skipWsGo : Nat → LexerState → LexerState
  | 0, st => st
  | n + 1, st =>
      match st.rest with
      | ' ' :: _ => skipWsGo n st.adv
      | '\r' :: _ => skipWsGo n st.adv
      | '\t' :: _ => skipWsGo n st.adv
      | '\n' :: _ => skipWsGo n st.adv
      | '/' :: '/' :: _ => skipWsGo n (skipLineComment (st.rest.length + 1) st)
      | '/' :: '*' :: _ => skipWsGo n (skipBlockComment (st.rest.length + 1) st.adv.adv)
      | _ => st

/-- `Lexer::skip_whitespace_and_comments`. -/
def skipWs (st : LexerState) : LexerState :=
  skipWsGo (st.rest.length + 1) st

/-- ASCII identifier-start test (`b'a'..=b'z' | b'A'..=b'Z' | b'_'`). -/
def isIdentStart (c : Char) : Bool :=
  ('a' ≤ c && c ≤ 'z') || ('A' ≤ c && c ≤ 'Z') || c = '_'

/-- ASCII `is_ascii_alphanumeric || == b'_'` continuation test. -/
def isIdentCont (c : Char) : Bool :=
  isIdentStart c || ('0' ≤ c && c ≤ '9')

/-- ASCII digit test. -/
def isDigit (c : Char) : Bool :=
  '0' ≤ c && c ≤ '9'

/-- Keyword reclassification table of `lex_identifier_or_keyword`. -/
def keywordKind (s : String) : TokenKind :=
  if s = "var" then .kwVar
  else if s = "func" then .kwFunc
  else if s = "object" then .kwObject
  else if s = "on" then .kwOn
  else if s = "if" then .kwIf
  else if s = "elif" then .kwElif
  else if s = "else" then .kwElse
  else if s = "while" then .kwWhile
  else if s = "for" then .kwFor
  else if s = "do" then .kwDo
  else if s = "then" then .kwThen
  else if s = "end" then .kwEnd
  else if s = "return" then .kwReturn
  else if s = "break" then .kwBreak
  else if s = "continue" then .kwContinue
  else if s = "true" then .kwTrue
  else if s = "false" then .kwFalse
  else if s = "nil" then .kwNil
  else if s = "and" then .kwAnd
  else if s = "or" then .kwOr
  else if s = "not" then .kwNot
  else .identifier

/-- Scan loop of `lex_identifier_or_keyword` (chars after the first). -/
def lexIdentGo : Nat → LexerState → List Char → (List Char × LexerState)
  | 0, st, buf => (buf, st)
  | n + 1, st, buf =>
      match st.rest with
      | c :: _ =>
          if isIdentCont c then lexIdentGo n st.adv (buf ++ [c]) else (buf, st)
      | [] => (buf, st)

/-- `Lexer::lex_identifier_or_keyword`. -/
def lexIdent (first : Char) (st : LexerState) (line column : Nat) :
    Token × LexerState :=
  let (buf, st') := lexIdentGo (st.rest.length + 1) st [first]
  let s := String.mk buf
  (⟨keywordKind s, s, line, column⟩, st')

/-- Scan loop of `lex_number`: digits plus at most one `.`. -/
def lexNumberGo : Nat → LexerState → List Char → Bool →
    (List Char × Bool × LexerState)
  | 0, st, buf, isFloat => (buf, isFloat, st)
  | n + 1, st, buf, isFloat =>
      match st.rest with
      | c :: _ =>
          if isDigit c then lexNumberGo n st.adv (buf ++ [c]) isFloat
          else if c = '.' && !isFloat then lexNumberGo n st.adv (buf ++ [c]) true
          else (buf, isFloat, st)
      | [] => (buf, isFloat, st)

/-- `Lexer::lex_number`. -/
def lexNumber (first : Char) (st : LexerState) (line column : Nat) :
    Token × LexerState :=
  let (buf, isFloat, st') := lexNumberGo (st.rest.length + 1) st [first] false
  (⟨if isFloat then .float else .int, String.mk buf, line, column⟩, st')

/-- Scan loop of `lex_string`: consume until the closing quote or end of
input, decoding `\n \t \r \\ \"` and passing unknown escapes through. -/
def lexStringGo : Nat → LexerState → List Char → (List Char × LexerState)
  | 0, st, buf => (buf, st)
  | n + 1, st, buf =>
      match st.rest with
      | [] => (buf, st)
      | c :: _ =>
          let st₁ := st.adv
          if c = '"' then (buf, st₁)
          else if c = '\\' then
            match st₁.rest with
            | [] => (buf, st₁)
            | e :: _ =>
                let st₂ := st₁.adv
                let decoded : Char :=
                  if e = 'n' then '\n'
                  else if e = 't' then '\t'
                  else if e = 'r' then '\r'
                  else if e = '\\' then '\\'
                  else if e = '"' then '"'
                  else e
                lexStringGo n st₂ (buf ++ [decoded])
          else lexStringGo n st₁ (buf ++ [c])

/-- `Lexer::lex_string` (the opening quote is already consumed). -/
def lexString (st : LexerState) (line column : Nat) : Token × LexerState :=
  let (buf, st') := lexStringGo (st.rest.length + 1) st []
  (⟨.string, String.mk buf, line, column⟩, st')

/-- `Lexer::next_token`. An unmatched byte yields a synthetic end-of-input
token (the defect documented in spec §7, preserved as the source has it). -/
def nextToken (st0 : LexerState) : Token × LexerState :=
  let st := skipWs st0
  let startLine := st.line
  let startCol := st.column
  match st.rest with
  | [] => (⟨.eof, "", startLine, startCol⟩, st)
  | ch :: _ =>
      let st₁ := st.adv
      if isIdentStart ch then lexIdent ch st₁ startLine startCol
      else if isDigit ch then lexNumber ch st₁ startLine startCol
      else if ch = '"' then lexString st₁ startLine startCol
      else
        let simple (k : TokenKind) (lx : String) : Token × LexerState :=
          (⟨k, lx, startLine, startCol⟩, st₁)
        let twoChar (k2 : TokenKind) (lx2 : String) (k1 : TokenKind)
            (lx1 : String) : Token × LexerState :=
          match st₁.rest with
          | '=' :: _ => (⟨k2, lx2, startLine, startCol⟩, st₁.adv)
          | _ => (⟨k1, lx1, startLine, startCol⟩, st₁)
        if ch = '(' then simple .lParen "("
        else if ch = ')' then simple .rParen ")"
        else if ch = '{' then simple .lBrace "\x7b"
        else if ch = '}' then simple .rBrace "\x7d"
        else if ch = '[' then simple .lBracket "["
        else if ch = ']' then simple .rBracket "]"
        else if ch = ',' then simple .comma ","
        else if ch = '.' then simple .dot "."
        else if ch = ':' then simple .colon ":"
        else if ch = ';' then simple .semicolon ";"
        else if ch = '+' then twoChar .plusEqual "+=" .plus "+"
        else if ch = '-' then twoChar .minusEqual "-=" .minus "-"
        else if ch = '*' then twoChar .starEqual "*=" .star "*"
        else if ch = '/' then twoChar .slashEqual "/=" .slash "/"
        else if ch = '%' then simple .percent "%"
        else if ch = '=' then twoChar .equalEqual "==" .equal "="
        else if ch = '!' then twoChar .bangEqual "!=" .kwNot "!"
        else if ch = '<' then twoChar .lessEqual "<=" .less "<"
        else if ch = '>' then twoChar .greaterEqual ">=" .greater ">"
        else (⟨.eof, "", startLine, startCol⟩, st₁)

/-- `Lexer::new`. -/
def Lexer.new (source : String) : LexerState :=
  ⟨source.data, 1, 1⟩

/-! ## Parser (src/parser.rs)

The source file contains two methods named `consume` in the same `impl`
block (lines 51-58 returning `Result`, and a stray leftover at lines 82-88
that panics); every call site uses the `?` operator, so the `Result`
version at lines 51-58 is the one embedded here. All parsing functions are
collected in `ParserFns`, built level by level by `parseN`: calling from
one parsing function into another steps down one fuel level, and `none`
means the fuel ran out.
-/

/-- `ParseError` (parser.rs). -/
structure ParseError where
  line : Nat
  column : Nat
  message : String
  deriving Repr, DecidableEq

/-- `Parser` (parser.rs): lexer, one-token lookahead, accumulated errors. -/
structure ParserState where
  lexer : LexerState
  current : Token
  errors : List ParseError
  deriving Repr, DecidableEq

/-- `Parser::new`. -/
def Parser.new (lx : LexerState) : ParserState :=
  let (t, lx') := nextToken lx
  ⟨lx', t, []⟩

/-- `Parser::advance`. -/
def advanceP (st : ParserState) : ParserState :=
  let (t, lx') := nextToken st.lexer
  { st with lexer := lx', current := t }

/-- `Parser::error` — a `ParseError` at the current token. -/
def errorP (st : ParserState) (msg : String) : ParseError :=
  ⟨st.current.line, st.current.column, msg⟩

/-- `Parser::consume` (the `Result`-returning one, parser.rs lines 51-58).
Its message interpolates the Rust `Debug` name of the expected kind. -/
def consumeP (st : ParserState) (kind : TokenKind) (msg : String) :
    Except ParseError Unit × ParserState :=
  if st.current.kind = kind then (.ok (), advanceP st)
  else (.error (errorP st ("expected " ++ kind.debugName ++ ": " ++ msg)), st)

/-- Digit accumulator for `parseI64` and `parseF64Model`. -/
def digitsVal : List Char → Nat → Nat
  | [], acc => acc
  | c :: rest, acc => digitsVal rest (acc * 10 + (c.toNat - '0'.toNat))

/-- Rust `str::parse::<i64>` as used on integer lexemes (and the `int()`
builtin): an optional sign followed by decimal digits, rejected when empty
or out of the `i64` range. -/
def parseI64 (s : String) : Option Int :=
  match s.data with
  | [] => none
  | c :: rest =>
      let signDigits : Int × List Char :=
        if c = '-' then (-1, rest)
        else if c = '+' then (1, rest)
        else (1, c :: rest)
      if signDigits.2 ≠ [] ∧ signDigits.2.all isDigit then
        let v : Int := signDigits.1 * digitsVal signDigits.2 0
        if -9223372036854775808 ≤ v ∧ v ≤ 9223372036854775807 then some v
        else none
      else none

/-- Rust `str::parse::<f64>` as used on float lexemes, modelled exactly on
rationals for the decimal shapes the lexer can produce
(`digits[.digits]`); other f64 syntax (exponents, inf, nan) is out of the
lexer's reach and is not modelled. -/
def parseF64Model (s : String) : Option Rat :=
  let parts := s.data.splitOn '.'
  match parts with
  | [intPart] =>
      if intPart ≠ [] ∧ intPart.all isDigit then
        some ((digitsVal intPart 0 : Int) : Rat)
      else none
  | [intPart, fracPart] =>
      if (intPart ≠ [] ∨ fracPart ≠ []) ∧ intPart.all isDigit ∧
          fracPart.all isDigit then
        some (mkRat (digitsVal intPart 0 * 10 ^ fracPart.length +
                digitsVal fracPart 0) (10 ^ fracPart.length))
      else none
  | _ => none

/-- Result type of the parsing functions: `none` when out of fuel,
otherwise the `Result` together with the parser state it left behind. -/
abbrev PRes (α : Type) := Option (Except ParseError α × ParserState)

/-- One fuel level of the mutually recursive parsing methods of `Parser`
(parser.rs); see `parseN`. -/
structure ParserFns where
  parseProgram : ParserState → Option (Except (List ParseError) Program × ParserState)
  parseProgramLoop : List Stmt → ParserState → Option (List Stmt × ParserState)
  synchronize : ParserState → Option ParserState
  syncLoop : ParserState → Option ParserState
  parseStatement : ParserState → PRes Stmt
  parseVarDecl : ParserState → PRes Stmt
  parseBlock : ParserState → PRes (List Stmt)
  parseBlockLoop : List Stmt → ParserState → Option (List Stmt × ParserState)
  parseIf : ParserState → PRes Stmt
  parseElifLoop : List (Expr × Stmt) → ParserState → PRes (List (Expr × Stmt))
  parseWhile : ParserState → PRes Stmt
  parseReturn : ParserState → PRes Stmt
  parseFuncDecl : ParserState → PRes FuncDecl
  parseParamsLoop : List String → ParserState → PRes (List String)
  parseObjectDecl : ParserState → PRes ObjectDecl
  parseMembersLoop : List ObjectMember → ParserState → PRes (List ObjectMember)
  parseEventDecl : ParserState → PRes EventDecl
  parseTableLiteral : ParserState → PRes (List TableField)
  parseFieldsLoop : List TableField → ParserState → PRes (List TableField)
  parseExpression : ParserState → PRes Expr
  parseOr : ParserState → PRes Expr
  parseOrLoop : Expr → ParserState → PRes Expr
  parseAnd : ParserState → PRes Expr
  parseAndLoop : Expr → ParserState → PRes Expr
  parseEquality : ParserState → PRes Expr
  parseEqualityLoop : Expr → ParserState → PRes Expr
  parseComparison : ParserState → PRes Expr
  parseComparisonLoop : Expr → ParserState → PRes Expr
  parseTerm : ParserState → PRes Expr
  parseTermLoop : Expr → ParserState → PRes Expr
  parseFactor : ParserState → PRes Expr
  parseFactorLoop : Expr → ParserState → PRes Expr
  parseUnary : ParserState → PRes Expr
  parsePrimary : ParserState → PRes Expr
  parsePostfixLoop : Expr → ParserState → PRes Expr
  parseArgsLoop : List Expr → ParserState → PRes (List Expr)

/-- The out-of-fuel level: every parsing function answers `none`. -/
def parserNone : ParserFns where
  parseProgram := fun _ => none
  parseProgramLoop := fun _ _ => none
  synchronize := fun _ => none
  syncLoop := fun _ => none
  parseStatement := fun _ => none
  parseVarDecl := fun _ => none
  parseBlock := fun _ => none
  parseBlockLoop := fun _ _ => none
  parseIf := fun _ => none
  parseElifLoop := fun _ _ => none
  parseWhile := fun _ => none
  parseReturn := fun _ => none
  parseFuncDecl := fun _ => none
  parseParamsLoop := fun _ _ => none
  parseObjectDecl := fun _ => none
  parseMembersLoop := fun _ _ => none
  parseEventDecl := fun _ => none
  parseTableLiteral := fun _ => none
  parseFieldsLoop := fun _ _ => none
  parseExpression := fun _ => none
  parseOr := fun _ => none
  parseOrLoop := fun _ _ => none
  parseAnd := fun _ => none
  parseAndLoop := fun _ _ => none
  parseEquality := fun _ => none
  parseEqualityLoop := fun _ _ => none
  parseComparison := fun _ => none
  parseComparisonLoop := fun _ _ => none
  parseTerm := fun _ => none
  parseTermLoop := fun _ _ => none
  parseFactor := fun _ => none
  parseFactorLoop := fun _ _ => none
  parseUnary := fun _ => none
  parsePrimary := fun _ => none
  parsePostfixLoop := fun _ _ => none
  parseArgsLoop := fun _ _ => none

/-- Build the parsing functions with `n + 1` fuel levels from those with
`n`; each clause is the body of the corresponding `Parser` method. -/
def parseN : Nat → ParserFns
  | 0 => parserNone
  | n + 1 =>
    let prev := parseN n
    { parseProgram := fun st =>
        match prev.parseProgramLoop [] st with
        | none => none
        | some (body, st₁) =>
            if st₁.errors = [] then some (.ok ⟨body⟩, st₁)
            else some (.error st₁.errors, { st₁ with errors := [] })
      parseProgramLoop := fun body st =>
        if st.current.kind = .eof then some (body, st)
        else
          match prev.parseStatement st with
          | none => none
          | some (.ok stmt, st₁) => prev.parseProgramLoop (body ++ [stmt]) st₁
          | some (.error e, st₁) =>
              let st₂ := { st₁ with errors := st₁.errors ++ [e] }
              match prev.synchronize st₂ with
              | none => none
              | some st₃ => prev.parseProgramLoop body st₃
      synchronize := fun st => prev.syncLoop (advanceP st)
      syncLoop := fun st =>
        if st.current.kind = .eof then some st
        else
          match st.current.kind with
          | .semicolon => some (advanceP st)
          | .kwFunc => some st
          | .kwVar => some st
          | .kwIf => some st
          | .kwWhile => some st
          | .kwReturn => some st
          | _ => prev.syncLoop (advanceP st)
      parseStatement := fun st =>
        match st.current.kind with
        | .kwVar => prev.parseVarDecl st
        | .kwIf => prev.parseIf st
        | .kwWhile => prev.parseWhile st
        | .kwReturn => prev.parseReturn st
        | .kwFunc =>
            match prev.parseFuncDecl st with
            | none => none
            | some (.error e, st₁) => some (.error e, st₁)
            | some (.ok f, st₁) => some (.ok (.funcDecl f), st₁)
        | .kwObject =>
            match prev.parseObjectDecl st with
            | none => none
            | some (.error e, st₁) => some (.error e, st₁)
            | some (.ok o, st₁) => some (.ok (.objectDecl o), st₁)
        | .lBrace =>
            match prev.parseBlock st with
            | none => none
            | some (.error e, st₁) => some (.error e, st₁)
            | some (.ok stmts, st₁) => some (.ok (.block stmts), st₁)
        | _ =>
            match prev.parseExpression st with
            | none => none
            | some (.error e, st₁) => some (.error e, st₁)
            | some (.ok ex, st₁) =>
                let st₂ := if st₁.current.kind = .semicolon then advanceP st₁ else st₁
                some (.ok (.expr ex), st₂)
      parseVarDecl := fun st =>
        let st₁ := advanceP st
        match st₁.current.kind with
        | .identifier =>
            let name := st₁.current.lexeme
            let st₂ := advanceP st₁
            let st₃ :=
              if st₂.current.kind = .colon then
                let stc := advanceP st₂
                if stc.current.kind = .identifier then advanceP stc else stc
              else st₂
            match consumeP st₃ .equal "expected \x27=\x27 in var declaration" with
            | (.error e, st₄) => some (.error e, st₄)
            | (.ok _, st₄) =>
                match prev.parseExpression st₄ with
                | none => none
                | some (.error e, st₅) => some (.error e, st₅)
                | some (.ok init, st₅) =>
                    let st₆ := if st₅.current.kind = .semicolon then advanceP st₅ else st₅
                    some (.ok (.varDecl name init), st₆)
        | _ => some (.error (errorP st₁ "expected identifier after \x27var\x27"), st₁)
      parseBlock := fun st =>
        match consumeP st .lBrace "expected \x27\x7b\x27 to start block" with
        | (.error e, st₁) => some (.error e, st₁)
        | (.ok _, st₁) =>
            match prev.parseBlockLoop [] st₁ with
            | none => none
            | some (stmts, st₂) =>
                match consumeP st₂ .rBrace "expected \x27\x7d\x27 to close block" with
                | (.error e, st₃) => some (.error e, st₃)
                | (.ok _, st₃) => some (.ok stmts, st₃)
      parseBlockLoop := fun acc st =>
        if st.current.kind = .rBrace ∨ st.current.kind = .eof then some (acc, st)
        else
          match prev.parseStatement st with
          | none => none
          | some (.ok s, st₁) => prev.parseBlockLoop (acc ++ [s]) st₁
          | some (.error e, st₁) =>
              let st₂ := { st₁ with errors := st₁.errors ++ [e] }
              match prev.synchronize st₂ with
              | none => none
              | some st₃ => prev.parseBlockLoop acc st₃
      parseIf := fun st =>
        match consumeP st .kwIf "expected \x27if\x27" with
        | (.error e, st₁) => some (.error e, st₁)
        | (.ok _, st₁) =>
            match prev.parseExpression st₁ with
            | none => none
            | some (.error e, st₂) => some (.error e, st₂)
            | some (.ok condition, st₂) =>
                match consumeP st₂ .kwThen "expected \x27then\x27 after if condition" with
                | (.error e, st₃) => some (.error e, st₃)
                | (.ok _, st₃) =>
                    match prev.parseBlock st₃ with
                    | none => none
                    | some (.error e, st₄) => some (.error e, st₄)
                    | some (.ok thenStmts, st₄) =>
                        match prev.parseElifLoop [] st₄ with
                        | none => none
                        | some (.error e, st₅) => some (.error e, st₅)
                        | some (.ok elifs, st₅) =>
                            match
                              (if st₅.current.kind = .kwElse then
                                match prev.parseBlock (advanceP st₅) with
                                | none => none
                                | some (.error e, st₆) => some (.error e, st₆)
                                | some (.ok elseStmts, st₆) =>
                                    some (.ok (some (Stmt.block elseStmts)), st₆)
                              else some (.ok none, st₅) :
                                PRes (Option Stmt)) with
                            | none => none
                            | some (.error e, st₆) => some (.error e, st₆)
                            | some (.ok elseB, st₆) =>
                                match consumeP st₆ .kwEnd "expected \x27end\x27 after if statement" with
                                | (.error e, st₇) => some (.error e, st₇)
                                | (.ok _, st₇) =>
                                    some (.ok (.ifS condition (.block thenStmts) elifs elseB), st₇)
      parseElifLoop := fun acc st =>
        if st.current.kind = .kwElif then
          match prev.parseExpression (advanceP st) with
          | none => none
          | some (.error e, st₁) => some (.error e, st₁)
          | some (.ok cond, st₁) =>
              match consumeP st₁ .kwThen "expected \x27then\x27 after elif condition" with
              | (.error e, st₂) => some (.error e, st₂)
              | (.ok _, st₂) =>
                  match prev.parseBlock st₂ with
                  | none => none
                  | some (.error e, st₃) => some (.error e, st₃)
                  | some (.ok blkStmts, st₃) =>
                      prev.parseElifLoop (acc ++ [(cond, Stmt.block blkStmts)]) st₃
        else some (.ok acc, st)
      parseWhile := fun st =>
        match consumeP st .kwWhile "expected \x27while\x27" with
        | (.error e, st₁) => some (.error e, st₁)
        | (.ok _, st₁) =>
            match prev.parseExpression st₁ with
            | none => none
            | some (.error e, st₂) => some (.error e, st₂)
            | some (.ok condition, st₂) =>
                match consumeP st₂ .kwDo "expected \x27do\x27 after while condition" with
                | (.error e, st₃) => some (.error e, st₃)
                | (.ok _, st₃) =>
                    match prev.parseBlock st₃ with
                    | none => none
                    | some (.error e, st₄) => some (.error e, st₄)
                    | some (.ok bodyStmts, st₄) =>
                        match consumeP st₄ .kwEnd "expected \x27end\x27 after while statement" with
                        | (.error e, st₅) => some (.error e, st₅)
                        | (.ok _, st₅) =>
                            some (.ok (.whileS condition (.block bodyStmts)), st₅)
      parseReturn := fun st =>
        match consumeP st .kwReturn "expected \x27return\x27" with
        | (.error e, st₁) => some (.error e, st₁)
        | (.ok _, st₁) =>
            match
              (if st₁.current.kind ≠ .semicolon then
                match prev.parseExpression st₁ with
                | none => none
                | some (.error e, st₂) => some (.error e, st₂)
                | some (.ok ex, st₂) => some (.ok (some ex), st₂)
              else some (.ok none, st₁) : PRes (Option Expr)) with
            | none => none
            | some (.error e, st₂) => some (.error e, st₂)
            | some (.ok exprOpt, st₂) =>
                let st₃ := if st₂.current.kind = .semicolon then advanceP st₂ else st₂
                some (.ok (.returnS exprOpt), st₃)
      parseFuncDecl := fun st =>
        match consumeP st .kwFunc "expected \x27func\x27" with
        | (.error e, st₁) => some (.error e, st₁)
        | (.ok _, st₁) =>
            match st₁.current.kind with
            | .identifier =>
                let name := st₁.current.lexeme
                let st₂ := advanceP st₁
                match consumeP st₂ .lParen "expected \x27(\x27 after function name" with
                | (.error e, st₃) => some (.error e, st₃)
                | (.ok _, st₃) =>
                    match
                      (if st₃.current.kind ≠ .rParen then prev.parseParamsLoop [] st₃
                       else some (.ok [], st₃) : PRes (List String)) with
                    | none => none
                    | some (.error e, st₄) => some (.error e, st₄)
                    | some (.ok params, st₄) =>
                        match consumeP st₄ .rParen "expected \x27)\x27 after parameter list" with
                        | (.error e, st₅) => some (.error e, st₅)
                        | (.ok _, st₅) =>
                            let st₆ :=
                              if st₅.current.kind = .colon then
                                let stc := advanceP st₅
                                if stc.current.kind = .identifier then advanceP stc else stc
                              else st₅
                            match consumeP st₆ .colon "expected \x27:\x27 before function body" with
                            | (.error e, st₇) => some (.error e, st₇)
                            | (.ok _, st₇) =>
                                match prev.parseBlock st₇ with
                                | none => none
                                | some (.error e, st₈) => some (.error e, st₈)
                                | some (.ok bodyStmts, st₈) =>
                                    match consumeP st₈ .kwEnd "expected \x27end\x27 after function body" with
                                    | (.error e, st₉) => some (.error e, st₉)
                                    | (.ok _, st₉) =>
                                        some (.ok (.mk name params (.block bodyStmts)), st₉)
            | _ => some (.error (errorP st₁ "expected function name after \x27func\x27"), st₁)
      parseParamsLoop := fun acc st =>
        match st.current.kind with
        | .identifier =>
            let acc₁ := acc ++ [st.current.lexeme]
            let st₁ := advanceP st
            if st₁.current.kind = .comma then prev.parseParamsLoop acc₁ (advanceP st₁)
            else some (.ok acc₁, st₁)
        | _ => some (.error (errorP st "expected parameter name"), st)
      parseObjectDecl := fun st =>
        match consumeP st .kwObject "expected \x27object\x27" with
        | (.error e, st₁) => some (.error e, st₁)
        | (.ok _, st₁) =>
            match st₁.current.kind with
            | .identifier =>
                let name := st₁.current.lexeme
                let st₂ := advanceP st₁
                match consumeP st₂ .colon "expected \x27:\x27 after object name" with
                | (.error e, st₃) => some (.error e, st₃)
                | (.ok _, st₃) =>
                    match consumeP st₃ .lBrace "expected \x27\x7b\x27 to start object body" with
                    | (.error e, st₄) => some (.error e, st₄)
                    | (.ok _, st₄) =>
                        match prev.parseMembersLoop [] st₄ with
                        | none => none
                        | some (.error e, st₅) => some (.error e, st₅)
                        | some (.ok members, st₅) =>
                            match consumeP st₅ .rBrace "expected \x27\x7d\x27 to close object body" with
                            | (.error e, st₆) => some (.error e, st₆)
                            | (.ok _, st₆) =>
                                match consumeP st₆ .kwEnd "expected \x27end\x27 after object" with
                                | (.error e, st₇) => some (.error e, st₇)
                                | (.ok _, st₇) => some (.ok (.mk name members), st₇)
            | _ => some (.error (errorP st₁ "expected object name after \x27object\x27"), st₁)
      parseMembersLoop := fun acc st =>
        if st.current.kind = .rBrace ∨ st.current.kind = .eof then some (.ok acc, st)
        else
          match st.current.kind with
          | .kwVar =>
              match prev.parseVarDecl st with
              | none => none
              | some (.error e, st₁) => some (.error e, st₁)
              | some (.ok varStmt, st₁) =>
                  prev.parseMembersLoop (acc ++ [ObjectMember.var varStmt]) st₁
          | .kwFunc =>
              match prev.parseFuncDecl st with
              | none => none
              | some (.error e, st₁) => some (.error e, st₁)
              | some (.ok f, st₁) =>
                  prev.parseMembersLoop (acc ++ [ObjectMember.method f]) st₁
          | .kwOn =>
              match prev.parseEventDecl st with
              | none => none
              | some (.error e, st₁) => some (.error e, st₁)
              | some (.ok ev, st₁) =>
                  prev.parseMembersLoop (acc ++ [ObjectMember.event ev]) st₁
          | _ =>
              some (.error (errorP st "expected \x27var\x27, \x27func\x27, or \x27on\x27 in object body"), st)
      parseEventDecl := fun st =>
        match consumeP st .kwOn "expected \x27on\x27" with
        | (.error e, st₁) => some (.error e, st₁)
        | (.ok _, st₁) =>
            match st₁.current.kind with
            | .identifier =>
                let name := st₁.current.lexeme
                let st₂ := advanceP st₁
                match consumeP st₂ .lParen "expected \x27(\x27 after event name" with
                | (.error e, st₃) => some (.error e, st₃)
                | (.ok _, st₃) =>
                    match
                      (if st₃.current.kind ≠ .rParen then prev.parseParamsLoop [] st₃
                       else some (.ok [], st₃) : PRes (List String)) with
                    | none => none
                    | some (.error e, st₄) => some (.error e, st₄)
                    | some (.ok params, st₄) =>
                        match consumeP st₄ .rParen "expected \x27)\x27 after parameter list" with
                        | (.error e, st₅) => some (.error e, st₅)
                        | (.ok _, st₅) =>
                            match consumeP st₅ .colon "expected \x27:\x27 before event body" with
                            | (.error e, st₆) => some (.error e, st₆)
                            | (.ok _, st₆) =>
                                match prev.parseBlock st₆ with
                                | none => none
                                | some (.error e, st₇) => some (.error e, st₇)
                                | some (.ok bodyStmts, st₇) =>
                                    match consumeP st₇ .kwEnd "expected \x27end\x27 after event body" with
                                    | (.error e, st₈) => some (.error e, st₈)
                                    | (.ok _, st₈) =>
                                        some (.ok (.mk name params (.block bodyStmts)), st₈)
            | _ => some (.error (errorP st₁ "expected event name after \x27on\x27"), st₁)
      parseTableLiteral := fun st =>
        match consumeP st .lBrace "expected \x27\x7b\x27" with
        | (.error e, st₁) => some (.error e, st₁)
        | (.ok _, st₁) =>
            match prev.parseFieldsLoop [] st₁ with
            | none => none
            | some (.error e, st₂) => some (.error e, st₂)
            | some (.ok fields, st₂) =>
                match consumeP st₂ .rBrace "expected \x27\x7d\x27 to close table literal" with
                | (.error e, st₃) => some (.error e, st₃)
                | (.ok _, st₃) => some (.ok fields, st₃)
      parseFieldsLoop := fun acc st =>
        if st.current.kind = .rBrace ∨ st.current.kind = .eof then some (.ok acc, st)
        else
          match
            (if st.current.kind = .identifier then
              let keyOrVal := st.current.lexeme
              let st₁ := advanceP st
              if st₁.current.kind = .colon then
                match prev.parseExpression (advanceP st₁) with
                | none => none
                | some (.error e, st₂) => some (.error e, st₂)
                | some (.ok v, st₂) =>
                    some (.ok (acc ++ [TableField.keyValue keyOrVal v]), st₂)
              else some (.ok (acc ++ [TableField.value (Expr.ident keyOrVal)]), st₁)
            else
              match prev.parseExpression st with
              | none => none
              | some (.error e, st₁) => some (.error e, st₁)
              | some (.ok v, st₁) =>
                  some (.ok (acc ++ [TableField.value v]), st₁) :
              PRes (List TableField)) with
          | none => none
          | some (.error e, st₁) => some (.error e, st₁)
          | some (.ok acc₁, st₁) =>
              if st₁.current.kind = .comma then prev.parseFieldsLoop acc₁ (advanceP st₁)
              else some (.ok acc₁, st₁)
      parseExpression := fun st => prev.parseOr st
      parseOr := fun st =>
        match prev.parseAnd st with
        | none => none
        | some (.error e, st₁) => some (.error e, st₁)
        | some (.ok left, st₁) => prev.parseOrLoop left st₁
      parseOrLoop := fun left st =>
        if st.current.kind = .kwOr then
          match prev.parseAnd (advanceP st) with
          | none => none
          | some (.error e, st₁) => some (.error e, st₁)
          | some (.ok right, st₁) =>
              prev.parseOrLoop (.binary left .or right) st₁
        else some (.ok left, st)
      parseAnd := fun st =>
        match prev.parseEquality st with
        | none => none
        | some (.error e, st₁) => some (.error e, st₁)
        | some (.ok left, st₁) => prev.parseAndLoop left st₁
      parseAndLoop := fun left st =>
        if st.current.kind = .kwAnd then
          match prev.parseEquality (advanceP st) with
          | none => none
          | some (.error e, st₁) => some (.error e, st₁)
          | some (.ok right, st₁) =>
              prev.parseAndLoop (.binary left .and right) st₁
        else some (.ok left, st)
      parseEquality := fun st =>
        match prev.parseComparison st with
        | none => none
        | some (.error e, st₁) => some (.error e, st₁)
        | some (.ok left, st₁) => prev.parseEqualityLoop left st₁
      parseEqualityLoop := fun left st =>
        match
          (match st.current.kind with
           | .equalEqual => some BinaryOp.equal
           | .bangEqual => some BinaryOp.notEqual
           | _ => none) with
        | some op =>
            match prev.parseComparison (advanceP st) with
            | none => none
            | some (.error e, st₁) => some (.error e, st₁)
            | some (.ok right, st₁) =>
                prev.parseEqualityLoop (.binary left op right) st₁
        | none => some (.ok left, st)
      parseComparison := fun st =>
        match prev.parseTerm st with
        | none => none
        | some (.error e, st₁) => some (.error e, st₁)
        | some (.ok left, st₁) => prev.parseComparisonLoop left st₁
      parseComparisonLoop := fun left st =>
        match
          (match st.current.kind with
           | .less => some BinaryOp.less
           | .lessEqual => some BinaryOp.lessEqual
           | .greater => some BinaryOp.greater
           | .greaterEqual => some BinaryOp.greaterEqual
           | _ => none) with
        | some op =>
            match prev.parseTerm (advanceP st) with
            | none => none
            | some (.error e, st₁) => some (.error e, st₁)
            | some (.ok right, st₁) =>
                prev.parseComparisonLoop (.binary left op right) st₁
        | none => some (.ok left, st)
      parseTerm := fun st =>
        match prev.parseFactor st with
        | none => none
        | some (.error e, st₁) => some (.error e, st₁)
        | some (.ok left, st₁) => prev.parseTermLoop left st₁
      parseTermLoop := fun left st =>
        match
          (match st.current.kind with
           | .plus => some BinaryOp.add
           | .minus => some BinaryOp.sub
           | _ => none) with
        | some op =>
            match prev.parseFactor (advanceP st) with
            | none => none
            | some (.error e, st₁) => some (.error e, st₁)
            | some (.ok right, st₁) =>
                prev.parseTermLoop (.binary left op right) st₁
        | none => some (.ok left, st)
      parseFactor := fun st =>
        match prev.parseUnary st with
        | none => none
        | some (.error e, st₁) => some (.error e, st₁)
        | some (.ok left, st₁) => prev.parseFactorLoop left st₁
      parseFactorLoop := fun left st =>
        match
          (match st.current.kind with
           | .star => some BinaryOp.mul
           | .slash => some BinaryOp.div
           | _ => none) with
        | some op =>
            match prev.parseUnary (advanceP st) with
            | none => none
            | some (.error e, st₁) => some (.error e, st₁)
            | some (.ok right, st₁) =>
                prev.parseFactorLoop (.binary left op right) st₁
        | none => some (.ok left, st)
      parseUnary := fun st =>
        match st.current.kind with
        | .minus =>
            match prev.parseUnary (advanceP st) with
            | none => none
            | some (.error e, st₁) => some (.error e, st₁)
            | some (.ok ex, st₁) => some (.ok (.unary .negate ex), st₁)
        | .kwNot =>
            match prev.parseUnary (advanceP st) with
            | none => none
            | some (.error e, st₁) => some (.error e, st₁)
            | some (.ok ex, st₁) => some (.ok (.unary .not ex), st₁)
        | _ => prev.parsePrimary st
      parsePrimary := fun st =>
        match
          (match st.current.kind with
           | .int =>
               some (.ok (Expr.literal (.int ((parseI64 st.current.lexeme).getD 0))),
                 advanceP st)
           | .float =>
               some (.ok (Expr.literal (.float ((parseF64Model st.current.lexeme).getD 0))),
                 advanceP st)
           | .kwTrue => some (.ok (Expr.literal (.bool true)), advanceP st)
           | .kwFalse => some (.ok (Expr.literal (.bool false)), advanceP st)
           | .kwNil => some (.ok (Expr.literal .nil), advanceP st)
           | .string => some (.ok (Expr.literal (.str st.current.lexeme)), advanceP st)
           | .identifier => some (.ok (Expr.ident st.current.lexeme), advanceP st)
           | .lParen =>
               match prev.parseExpression (advanceP st) with
               | none => none
               | some (.error e, st₁) => some (.error e, st₁)
               | some (.ok ex, st₁) =>
                   match consumeP st₁ .rParen "expected \x27)\x27 after expression" with
                   | (.error e, st₂) => some (.error e, st₂)
                   | (.ok _, st₂) => some (.ok ex, st₂)
           | .lBrace =>
               match prev.parseTableLiteral st with
               | none => none
               | some (.error e, st₁) => some (.error e, st₁)
               | some (.ok fields, st₁) => some (.ok (Expr.tableLiteral fields), st₁)
           | k =>
               some (.error (errorP st
                 ("unexpected token in primary expression: " ++ k.debugName)), st) :
            PRes Expr) with
        | none => none
        | some (.error e, st₁) => some (.error e, st₁)
        | some (.ok ex, st₁) => prev.parsePostfixLoop ex st₁
      parsePostfixLoop := fun acc st =>
        match st.current.kind with
        | .lParen =>
            match
              (if (advanceP st).current.kind ≠ .rParen then
                prev.parseArgsLoop [] (advanceP st)
              else some (.ok [], advanceP st) : PRes (List Expr)) with
            | none => none
            | some (.error e, st₁) => some (.error e, st₁)
            | some (.ok args, st₁) =>
                match consumeP st₁ .rParen "expected \x27)\x27 after arguments" with
                | (.error e, st₂) => some (.error e, st₂)
                | (.ok _, st₂) => prev.parsePostfixLoop (.call acc args) st₂
        | .dot =>
            let st₁ := advanceP st
            match st₁.current.kind with
            | .identifier =>
                prev.parsePostfixLoop (.member acc st₁.current.lexeme) (advanceP st₁)
            | _ => some (.error (errorP st₁ "expected field name after \x27.\x27"), st₁)
        | .lBracket =>
            match prev.parseExpression (advanceP st) with
            | none => none
            | some (.error e, st₁) => some (.error e, st₁)
            | some (.ok idx, st₁) =>
                match consumeP st₁ .rBracket "expected \x27]\x27 after index" with
                | (.error e, st₂) => some (.error e, st₂)
                | (.ok _, st₂) => prev.parsePostfixLoop (.index acc idx) st₂
        | _ => some (.ok acc, st)
      parseArgsLoop := fun acc st =>
        match prev.parseExpression st with
        | none => none
        | some (.error e, st₁) => some (.error e, st₁)
        | some (.ok arg, st₁) =>
            let acc₁ := acc ++ [arg]
            if st₁.current.kind = .comma then prev.parseArgsLoop acc₁ (advanceP st₁)
            else some (.ok acc₁, st₁)
    }

/-- Run the parser on a source string the way main.rs does:
`Parser::new(Lexer::new(source)).parse_program()`. -/
def parseSource (fuel : Nat) (source : String) :
    Option (Except (List ParseError) Program × ParserState) :=
  (parseN fuel).parseProgram (Parser.new (Lexer.new source))

/-- The result component of `parseSource` (callers of `parse_program` only
look at the returned `Result`). -/
def parseResult (fuel : Nat) (source : String) :
    Option (Except (List ParseError) Program) :=
  (parseSource fuel source).map Prod.fst

/-! ## Interpreter data model (src/interpreter.rs) -/

/-- `RuntimeError` (interpreter.rs). -/
structure RuntimeError where
  message : String
  line : Option Nat
  deriving Repr, DecidableEq

/-- `RuntimeError::new`. -/
def RuntimeError.new (msg : String) : RuntimeError :=
  ⟨msg, none⟩

mutual
/-- `Value` (interpreter.rs). `Float(f64)` is embedded as `Rat`;
`Table(HashMap<String, Value>)` as an association list. -/
inductive Value where
  | int (i : Int)
  | float (f : Rat)
  | bool (b : Bool)
  | str (s : String)
  | function (decl : FuncDecl) (closure : Option Environment)
  | table (entries : List (String × Value))
  | builtinFunction (name : String)
  | nil
  deriving Repr

/-- `Environment` (interpreter.rs): a name→value mapping plus an optional
parent. Rust's `clone()` of an `Environment` is a deep copy; since the
embedding is purely functional, a clone is just the value itself. -/
inductive Environment where
  | mk (values : List (String × Value)) (parent : Option Environment)
  deriving Repr
end

/-- Value list of an `Environment`. -/
def Environment.values : Environment → List (String × Value)
  | .mk vs _ => vs

/-- Parent of an `Environment`. -/
def Environment.parent : Environment → Option Environment
  | .mk _ p => p

/-- `HashMap::get` on the association-list embedding. -/
def lookupA : List (String × Value) → String → Option Value
  | [], _ => none
  | (k, v) :: rest, name => if k = name then some v else lookupA rest name

/-- `HashMap::insert` on the association-list embedding: replace the
binding if the key is present, else append it. -/
def setA : List (String × Value) → String → Value → List (String × Value)
  | [], k, v => [(k, v)]
  | (k', v') :: rest, k, v =>
      if k' = k then (k, v) :: rest else (k', v') :: setA rest k v

/-- `Environment::new`. -/
def Environment.new : Environment := .mk [] none

/-- `Environment::with_parent`. -/
def Environment.withParent (parent : Option Environment) : Environment :=
  .mk [] parent

/-- `Environment::define` — insert into this environment's own map. -/
def Environment.define (env : Environment) (name : String) (v : Value) :
    Environment :=
  match env with
  | .mk values parent => .mk (setA values name v) parent

/-- `Environment::get` — own map first, then the parent chain. -/
def Environment.get : Environment → String → Option Value
  | .mk values none, name => lookupA values name
  | .mk values (some p), name =>
      match lookupA values name with
      | some v => some v
      | none => Environment.get p name

/-! ## Pure value operations (src/interpreter.rs) -/

/-- `Interpreter::truthy`. -/
def truthy : Value → Bool
  | .bool b => b
  | .nil => false
  | _ => true

/-- Truncation toward zero of a rational, as in `f64::trunc`. -/
def ratTrunc (q : Rat) : Int := Int.tdiv q.num q.den

/-- Floor of a rational as an integer (`f64::floor` then `as i64`). -/
def ratFloorI (q : Rat) : Int := Int.fdiv q.num q.den

/-- Ceiling of a rational as an integer (`f64::ceil` then `as i64`). -/
def ratCeilI (q : Rat) : Int := -Int.fdiv (-q.num) q.den

/-- `f64::round` (ties away from zero) as an integer. -/
def ratRoundI (q : Rat) : Int :=
  if 0 ≤ q then ratFloorI (q + 1 / 2) else -ratFloorI (-q + 1 / 2)

/-- Rust `as i64` on an `f64`: truncate toward zero and saturate at the
`i64` bounds. -/
def ratToI64 (q : Rat) : Int :=
  max (-(2 ^ 63)) (min (2 ^ 63 - 1) (ratTrunc q))

/-- Rust `%` on `f64` (remainder with the dividend's sign), modelled
exactly on rationals: `a - b * trunc(a / b)`. -/
def ratFRem (a b : Rat) : Rat := a - b * (ratTrunc (a / b) : Rat)

/-- Decimal rendering of the `Rat` embedding of an `f64`, used by
`value_to_string`. Modelled: exact f64 `Display` formatting is not
reproduced (no claim depends on it); integral values print without a
denominator, like `Display` does for f64 values with zero fraction. -/
def ratToString (q : Rat) : String :=
  if q.den = 1 then toString q.num
  else toString q.num ++ "/" ++ toString q.den

/-- `Interpreter::value_to_string`. -/
def valueToString : Value → String
  | .int i => toString i
  | .float f => ratToString f
  | .bool b => if b then "true" else "false"
  | .str s => s
  | .function _ _ => "<function>"
  | .table _ => "<table>"
  | .builtinFunction name => "<builtin: " ++ name ++ ">"
  | .nil => "nil"

/-- `Interpreter::eval_literal`. -/
def evalLiteral : Literal → Value
  | .int i => .int i
  | .float f => .float f
  | .bool b => .bool b
  | .str s => .str s
  | .nil => .nil

/-- `Interpreter::negate` (a helper that is never called in the source;
kept for completeness). -/
def negateV : Value → Value
  | .int i => .int (-i)
  | .float f => .float (-f)
  | _ => .nil

/-- `Interpreter::add`. -/
def add : Value → Value → Except RuntimeError Value
  | .int a, .int b => .ok (.int (a + b))
  | .float a, .float b => .ok (.float (a + b))
  | .int a, .float b => .ok (.float ((a : Rat) + b))
  | .float a, .int b => .ok (.float (a + (b : Rat)))
  | .str a, .str b => .ok (.str (a ++ b))
  | _, _ => .error (RuntimeError.new "type error: cannot add the given operands")

/-- `Interpreter::sub`. -/
def sub : Value → Value → Except RuntimeError Value
  | .int a, .int b => .ok (.int (a - b))
  | .float a, .float b => .ok (.float (a - b))
  | .int a, .float b => .ok (.float ((a : Rat) - b))
  | .float a, .int b => .ok (.float (a - (b : Rat)))
  | _, _ => .error (RuntimeError.new "type error: cannot subtract the given operands")

/-- `Interpreter::mul`. -/
def mul : Value → Value → Except RuntimeError Value
  | .int a, .int b => .ok (.int (a * b))
  | .float a, .float b => .ok (.float (a * b))
  | .int a, .float b => .ok (.float ((a : Rat) * b))
  | .float a, .int b => .ok (.float (a * (b : Rat)))
  | _, _ => .error (RuntimeError.new "type error: cannot multiply the given operands")

/-- `Interpreter::div` — every zero right operand, integer or float, is
rejected before any division is performed. -/
def div : Value → Value → Except RuntimeError Value
  | .int a, .int b =>
      if b = 0 then .error (RuntimeError.new "division by zero")
      else .ok (.int (Int.tdiv a b))
  | .float a, .float b =>
      if b = 0 then .error (RuntimeError.new "division by zero")
      else .ok (.float (a / b))
  | .int a, .float b =>
      if b = 0 then .error (RuntimeError.new "division by zero")
      else .ok (.float ((a : Rat) / b))
  | .float a, .int b =>
      if b = 0 then .error (RuntimeError.new "division by zero")
      else .ok (.float (a / (b : Rat)))
  | _, _ => .error (RuntimeError.new "type error: cannot divide the given operands")

/-- `Interpreter::modulo` — every zero right operand, integer or float, is
rejected before any remainder is computed. -/
def modulo : Value → Value → Except RuntimeError Value
  | .int a, .int b =>
      if b = 0 then .error (RuntimeError.new "modulo by zero")
      else .ok (.int (Int.tmod a b))
  | .float a, .float b =>
      if b = 0 then .error (RuntimeError.new "modulo by zero")
      else .ok (.float (ratFRem a b))
  | .int a, .float b =>
      if b = 0 then .error (RuntimeError.new "modulo by zero")
      else .ok (.float (ratFRem (a : Rat) b))
  | .float a, .int b =>
      if b = 0 then .error (RuntimeError.new "modulo by zero")
      else .ok (.float (ratFRem a (b : Rat)))
  | _, _ => .error (RuntimeError.new "type error: cannot apply modulo to the given operands")

/-- `Interpreter::eq` — equality only within matching variants; every
cross-variant pair (tables and functions included) is `false`. -/
def eqV : Value → Value → Bool
  | .int a, .int b => a = b
  | .float a, .float b => a = b
  | .bool a, .bool b => a = b
  | .str a, .str b => a = b
  | .nil, .nil => true
  | _, _ => false

/-- `Interpreter::cmp` — both operands coerced to floating point; the
comparison itself is passed in by `apply_binary`. -/
def cmp (f : Rat → Rat → Bool) : Value → Value → Except RuntimeError Value
  | .int a, .int b => .ok (.bool (f (a : Rat) (b : Rat)))
  | .float a, .float b => .ok (.bool (f a b))
  | .int a, .float b => .ok (.bool (f (a : Rat) b))
  | .float a, .int b => .ok (.bool (f a (b : Rat)))
  | _, _ => .error (RuntimeError.new "type error: cannot compare given operands")

/-- Semantics of `apply_and`. The method is called by `apply_binary`
(interpreter.rs line 759) but defined nowhere in the source; the stray
duplicate match arms at interpreter.rs lines 763-767 give its evident
body, which is embedded here: both operands are already evaluated and the
result is the conjunction of their truthiness. -/
def applyAnd (l r : Value) : Value := .bool (truthy l && truthy r)

/-- Semantics of `apply_or`; see `applyAnd` (interpreter.rs lines 760 and
765). -/
def applyOr (l r : Value) : Value := .bool (truthy l || truthy r)

/-- `Interpreter::apply_binary`. Both operands were evaluated by the
caller (`eval_expr`, `Expr::Binary` arm) before this runs. -/
def applyBinary : BinaryOp → Value → Value → Except RuntimeError Value
  | .add, l, r => add l r
  | .sub, l, r => sub l r
  | .mul, l, r => mul l r
  | .div, l, r => div l r
  | .mod, l, r => modulo l r
  | .equal, l, r => .ok (.bool (eqV l r))
  | .notEqual, l, r => .ok (.bool (!eqV l r))
  | .less, l, r => cmp (fun a b => a < b) l r
  | .lessEqual, l, r => cmp (fun a b => a ≤ b) l r
  | .greater, l, r => cmp (fun a b => b < a) l r
  | .greaterEqual, l, r => cmp (fun a b => b ≤ a) l r
  | .and, l, r => .ok (applyAnd l r)
  | .or, l, r => .ok (applyOr l r)

/-- `Interpreter::new` / `register_builtins`: the root environment holds
the builtin name tags, in registration order. -/
def Interpreter.initialEnv : Environment :=
  .mk [("print", .builtinFunction "print"),
       ("println", .builtinFunction "println"),
       ("type", .builtinFunction "type"),
       ("len", .builtinFunction "len"),
       ("str", .builtinFunction "str"),
       ("int", .builtinFunction "int"),
       ("float", .builtinFunction "float"),
       ("abs", .builtinFunction "abs"),
       ("min", .builtinFunction "min"),
       ("max", .builtinFunction "max"),
       ("floor", .builtinFunction "floor"),
       ("ceil", .builtinFunction "ceil"),
       ("round", .builtinFunction "round"),
       ("sqrt", .builtinFunction "sqrt"),
       ("pow", .builtinFunction "pow"),
       ("substring", .builtinFunction "substring"),
       ("contains", .builtinFunction "contains"),
       ("toUpper", .builtinFunction "toUpper"),
       ("toLower", .builtinFunction "toLower")] none

/-! ## Builtin helpers (src/interpreter.rs, `call_builtin`) -/

/-- Does `needle` occur at the head of `hay`? -/
def listPrefix : List Char → List Char → Bool
  | [], _ => true
  | _ :: _, [] => false
  | n :: ns, h :: hs => n = h && listPrefix ns hs

/-- Does `needle` occur anywhere in `hay`? (Rust `str::contains`.) -/
def listSub (needle : List Char) : List Char → Bool
  | [] => listPrefix needle []
  | h :: t => listPrefix needle (h :: t) || listSub needle t

/-- Rust `str::contains` on the char-list embedding. -/
def strContains (s sub : String) : Bool := listSub sub.data s.data

/-- Rust `str::parse::<f64>` for the `float()` builtin: an optional sign
followed by a decimal form; other f64 syntax (exponents, inf, nan) is not
modelled (no claim exercises it). -/
def parseF64Full (s : String) : Option Rat :=
  match s.data with
  | '-' :: rest => (parseF64Model (String.mk rest)).map Neg.neg
  | '+' :: rest => parseF64Model (String.mk rest)
  | _ => parseF64Model s

/-- Model of `f64::sqrt` on the rational embedding (`Rat.sqrt` is exact on
perfect squares; no claim exercises sqrt). -/
def ratSqrtModel (q : Rat) : Rat := Rat.sqrt q

/-- Rust `as i32` cast from `i64`: saturating. -/
def i64ToI32 (e : Int) : Int := max (-(2 ^ 31)) (min (2 ^ 31 - 1) e)

/-- Model of `f64::powf` on the rational embedding: exact for integral
exponents, a stand-in otherwise (no claim exercises `pow`). -/
def ratPowF (b e : Rat) : Rat := if e.den = 1 then b ^ e.num else 0

/-- `substring` clamping per the source: both bounds clamped into
`[0, length]`, then `start` clamped to `end`, slicing the char vector. -/
def substringClamped (s : String) (start stop : Int) : String :=
  let startN := (max start 0).toNat
  let stopN := (max stop 0).toNat
  let chars := s.data
  let stopC := min stopN chars.length
  let startC := min startN stopC
  String.mk ((chars.drop startC).take (stopC - startC))

/-! ## Evaluator (src/interpreter.rs)

All mutually recursive methods of `Interpreter` are collected in `Evals`,
built level by level by `evalN`: every call from one interpreter method to
another steps down one fuel level, so fuel bounds the depth of the
source's recursion (and the number of loop iterations); `none` means the
fuel ran out, which never happens for the concrete programs here.
`self.env` is threaded explicitly: each function returns the environment
`self.env` holds when the corresponding Rust method returns, including on
error paths.
-/

/-- Result of evaluating an expression: value or error, with the
environment left in `self.env`. -/
abbrev VRes := Option (Except RuntimeError Value × Environment)

/-- Result of evaluating a statement: optional unwind value or error, with
the environment left in `self.env`. -/
abbrev URes := Option (Except RuntimeError (Option Value) × Environment)

/-- The statement loop shared by `Stmt::Block` and `eval_function_body`:
run statements in order; the first unwind value or error stops the loop. -/
def runStmts (evalStmt : Stmt → Environment → URes) :
    List Stmt → Environment → URes
  | [], env => some (.ok none, env)
  | s :: rest, env =>
      match evalStmt s env with
      | none => none
      | some (.error e, env') => some (.error e, env')
      | some (.ok (some v), env') => some (.ok (some v), env')
      | some (.ok none, env') => runStmts evalStmt rest env'

/-- Parameter binding loop of `eval_call`: parameters bind positionally to
evaluated arguments, missing ones default to Nil, extras are never
consulted. Argument expressions are evaluated in the caller's environment
(the call environment is only installed afterwards). -/
def bindParams (evalExpr : Expr → Environment → VRes) :
    List String → List Expr → Environment → List (String × Value) →
    Option (Except RuntimeError (List (String × Value)) × Environment)
  | [], _, env, acc => some (.ok acc, env)
  | p :: ps, [], env, acc =>
      bindParams evalExpr ps [] env (setA acc p .nil)
  | p :: ps, a :: as_, env, acc =>
      match evalExpr a env with
      | none => none
      | some (.error e, env') => some (.error e, env')
      | some (.ok v, env') => bindParams evalExpr ps as_ env' (setA acc p v)

/-- The `elif` chain of `Stmt::If`: returns whether some branch handled
the condition. Branch unwind values are discarded, as in the source. -/
def evalElifs (evalExpr : Expr → Environment → VRes)
    (evalStmt : Stmt → Environment → URes) :
    List (Expr × Stmt) → Environment →
    Option (Except RuntimeError Bool × Environment)
  | [], env => some (.ok false, env)
  | (cond, blk) :: rest, env =>
      match evalExpr cond env with
      | none => none
      | some (.error e, env') => some (.error e, env')
      | some (.ok cv, env') =>
          if truthy cv then
            match evalStmt blk env' with
            | none => none
            | some (.error e, env'') => some (.error e, env'')
            | some (.ok _, env'') => some (.ok true, env'')
          else evalElifs evalExpr evalStmt rest env'

/-- The field loop of `Expr::TableLiteral`: key-value fields key by name,
bare fields by their positional index stringified. -/
def evalTableFields (evalExpr : Expr → Environment → VRes) :
    List TableField → Nat → Environment → List (String × Value) →
    Option (Except RuntimeError (List (String × Value)) × Environment)
  | [], _, env, acc => some (.ok acc, env)
  | f :: rest, idx, env, acc =>
      match f with
      | .keyValue key value =>
          match evalExpr value env with
          | none => none
          | some (.error e, env') => some (.error e, env')
          | some (.ok v, env') =>
              evalTableFields evalExpr rest (idx + 1) env' (setA acc key v)
      | .value ex =>
          match evalExpr ex env with
          | none => none
          | some (.error e, env') => some (.error e, env')
          | some (.ok v, env') =>
              evalTableFields evalExpr rest (idx + 1) env'
                (setA acc (toString idx) v)

/-- The member loop of `Stmt::ObjectDecl`: `var` members evaluate eagerly
(non-`VarDecl` payloads are skipped by the source's `if let`), `func`
members capture the current environment as their closure, `on` members
produce no entry. -/
def evalObjectMembers (evalExpr : Expr → Environment → VRes) :
    List ObjectMember → Environment → List (String × Value) →
    Option (Except RuntimeError (List (String × Value)) × Environment)
  | [], env, acc => some (.ok acc, env)
  | m :: rest, env, acc =>
      match m with
      | .var varStmt =>
          match varStmt with
          | .varDecl name init =>
              match evalExpr init env with
              | none => none
              | some (.error e, env') => some (.error e, env')
              | some (.ok v, env') =>
                  evalObjectMembers evalExpr rest env' (setA acc name v)
          | _ => evalObjectMembers evalExpr rest env acc
      | .method f =>
          evalObjectMembers evalExpr rest env
            (setA acc f.name (.function f (some env)))
      | .event _ => evalObjectMembers evalExpr rest env acc

/-- The argument loop of `print`/`println`: evaluate every argument in
order (the printed output itself is not modelled; `print` has no effect on
the environment beyond argument evaluation). -/
def evalArgsSeq (evalExpr : Expr → Environment → VRes) :
    List Expr → Environment → Option (Except RuntimeError Unit × Environment)
  | [], env => some (.ok (), env)
  | a :: rest, env =>
      match evalExpr a env with
      | none => none
      | some (.error e, env') => some (.error e, env')
      | some (.ok _, env') => evalArgsSeq evalExpr rest env'

/-- One fuel level of the mutually recursive evaluation methods of
`Interpreter` (interpreter.rs); see `evalN`. -/
structure Evals where
  evalExpr : Expr → Environment → VRes
  evalCall : Expr → List Expr → Environment → VRes
  callBuiltin : String → List Expr → Environment → VRes
  evalFunctionBody : Stmt → Environment → URes
  evalStmt : Stmt → Environment → URes
  whileLoop : Expr → Stmt → Environment → URes
  forLoop : String → Int → Int → Int → Stmt → Environment → URes

/-- The out-of-fuel level: every evaluation function answers `none`. -/
def evalsNone : Evals where
  evalExpr := fun _ _ => none
  evalCall := fun _ _ _ => none
  callBuiltin := fun _ _ _ => none
  evalFunctionBody := fun _ _ => none
  evalStmt := fun _ _ => none
  whileLoop := fun _ _ _ => none
  forLoop := fun _ _ _ _ _ _ => none

/-- Build the evaluation functions with `n + 1` fuel levels from those
with `n`; each clause is the body of the corresponding `Interpreter`
method. -/
def evalN : Nat → Evals
  | 0 => evalsNone
  | n + 1 =>
    let prev := evalN n
    { evalExpr := fun e env =>
        match e with
        | .literal lit => some (.ok (evalLiteral lit), env)
        | .ident name =>
            match env.get name with
            | some v => some (.ok v, env)
            | none =>
                some (.error (RuntimeError.new
                  ("Undefined identifier \x27" ++ name ++ "\x27")), env)
        | .unary op sub =>
            match prev.evalExpr sub env with
            | none => none
            | some (.error er, env₁) => some (.error er, env₁)
            | some (.ok v, env₁) =>
                match op with
                | .negate =>
                    match v with
                    | .int i => some (.ok (.int (-i)), env₁)
                    | .float f => some (.ok (.float (-f)), env₁)
                    | _ =>
                        some (.error (RuntimeError.new
                          "type error: unary - on non-number"), env₁)
                | .not => some (.ok (.bool (!truthy v)), env₁)
        | .binary left op right =>
            match prev.evalExpr left env with
            | none => none
            | some (.error er, env₁) => some (.error er, env₁)
            | some (.ok lv, env₁) =>
                match prev.evalExpr right env₁ with
                | none => none
                | some (.error er, env₂) => some (.error er, env₂)
                | some (.ok rv, env₂) =>
                    match applyBinary op lv rv with
                    | .ok v => some (.ok v, env₂)
                    | .error er => some (.error er, env₂)
        | .call callee args => prev.evalCall callee args env
        | .member obj field =>
            match prev.evalExpr obj env with
            | none => none
            | some (.error er, env₁) => some (.error er, env₁)
            | some (.ok ov, env₁) =>
                match ov with
                | .table entries =>
                    some (.ok ((lookupA entries field).getD .nil), env₁)
                | _ =>
                    some (.error (RuntimeError.new
                      ("cannot access member \x27" ++ field ++
                        "\x27 on non-table")), env₁)
        | .index obj idx =>
            match prev.evalExpr obj env with
            | none => none
            | some (.error er, env₁) => some (.error er, env₁)
            | some (.ok ov, env₁) =>
                match prev.evalExpr idx env₁ with
                | none => none
                | some (.error er, env₂) => some (.error er, env₂)
                | some (.ok iv, env₂) =>
                    match ov, iv with
                    | .table entries, .str key =>
                        some (.ok ((lookupA entries key).getD .nil), env₂)
                    | .table _, _ =>
                        some (.error (RuntimeError.new
                          "table index must be a string"), env₂)
                    | _, _ =>
                        some (.error (RuntimeError.new
                          "cannot index non-table"), env₂)
        | .tableLiteral fields =>
            match evalTableFields prev.evalExpr fields 0 env [] with
            | none => none
            | some (.error er, env₁) => some (.error er, env₁)
            | some (.ok entries, env₁) => some (.ok (.table entries), env₁)
      evalCall := fun callee args env =>
        match prev.evalExpr callee env with
        | none => none
        | some (.error er, env₁) => some (.error er, env₁)
        | some (.ok calleeVal, env₁) =>
            match calleeVal with
            | .builtinFunction name => prev.callBuiltin name args env₁
            | .function decl closure =>
                let parent : Option Environment :=
                  match closure with
                  | some captured => some captured
                  | none => some env₁
                match bindParams prev.evalExpr decl.params args env₁ [] with
                | none => none
                | some (.error er, envA) => some (.error er, envA)
                | some (.ok callVals, envA) =>
                    let callEnv := Environment.mk callVals parent
                    match prev.evalFunctionBody decl.body callEnv with
                    | none => none
                    | some (.error er, envB) => some (.error er, envB)
                    | some (.ok resultOpt, _) =>
                        some (.ok (resultOpt.getD .nil), envA)
            | _ =>
                some (.error (RuntimeError.new
                  "attempt to call non-function"), env₁)
      callBuiltin := fun name args env =>
        if name = "print" ∨ name = "println" then
          match evalArgsSeq prev.evalExpr args env with
          | none => none
          | some (.error er, env₁) => some (.error er, env₁)
          | some (.ok _, env₁) => some (.ok .nil, env₁)
        else if name = "type" then
          match args with
          | [] => some (.error (RuntimeError.new "type() requires 1 argument"), env)
          | a :: _ =>
              match prev.evalExpr a env with
              | none => none
              | some (.error er, env₁) => some (.error er, env₁)
              | some (.ok v, env₁) =>
                  let typeName : String :=
                    match v with
                    | .int _ => "int"
                    | .float _ => "float"
                    | .bool _ => "bool"
                    | .str _ => "string"
                    | .function _ _ => "function"
                    | .table _ => "table"
                    | .builtinFunction _ => "builtin_function"
                    | .nil => "nil"
                  some (.ok (.str typeName), env₁)
        else if name = "len" then
          match args with
          | [] => some (.error (RuntimeError.new "len() requires 1 argument"), env)
          | a :: _ =>
              match prev.evalExpr a env with
              | none => none
              | some (.error er, env₁) => some (.error er, env₁)
              | some (.ok v, env₁) =>
                  match v with
                  | .str s => some (.ok (.int s.length), env₁)
                  | .table t => some (.ok (.int t.length), env₁)
                  | _ =>
                      some (.error (RuntimeError.new
                        "len() requires string or table argument"), env₁)
        else if name = "str" then
          match args with
          | [] => some (.error (RuntimeError.new "str() requires 1 argument"), env)
          | a :: _ =>
              match prev.evalExpr a env with
              | none => none
              | some (.error er, env₁) => some (.error er, env₁)
              | some (.ok v, env₁) => some (.ok (.str (valueToString v)), env₁)
        else if name = "int" then
          match args with
          | [] => some (.error (RuntimeError.new "int() requires 1 argument"), env)
          | a :: _ =>
              match prev.evalExpr a env with
              | none => none
              | some (.error er, env₁) => some (.error er, env₁)
              | some (.ok v, env₁) =>
                  match v with
                  | .int i => some (.ok (.int i), env₁)
                  | .float f => some (.ok (.int (ratToI64 f)), env₁)
                  | .str s =>
                      match parseI64 s with
                      | some i => some (.ok (.int i), env₁)
                      | none =>
                          some (.error (RuntimeError.new
                            "cannot convert string to int"), env₁)
                  | .bool b => some (.ok (.int (if b then 1 else 0)), env₁)
                  | _ =>
                      some (.error (RuntimeError.new "cannot convert to int"), env₁)
        else if name = "float" then
          match args with
          | [] => some (.error (RuntimeError.new "float() requires 1 argument"), env)
          | a :: _ =>
              match prev.evalExpr a env with
              | none => none
              | some (.error er, env₁) => some (.error er, env₁)
              | some (.ok v, env₁) =>
                  match v with
                  | .int i => some (.ok (.float (i : Rat)), env₁)
                  | .float f => some (.ok (.float f), env₁)
                  | .str s =>
                      match parseF64Full s with
                      | some f => some (.ok (.float f), env₁)
                      | none =>
                          some (.error (RuntimeError.new
                            "cannot convert string to float"), env₁)
                  | _ =>
                      some (.error (RuntimeError.new "cannot convert to float"), env₁)
        else if name = "abs" then
          match args with
          | [] => some (.error (RuntimeError.new "abs() requires 1 argument"), env)
          | a :: _ =>
              match prev.evalExpr a env with
              | none => none
              | some (.error er, env₁) => some (.error er, env₁)
              | some (.ok v, env₁) =>
                  match v with
                  | .int i => some (.ok (.int i.natAbs), env₁)
                  | .float f => some (.ok (.float |f|), env₁)
                  | _ =>
                      some (.error (RuntimeError.new
                        "abs() requires numeric argument"), env₁)
        else if name = "min" ∨ name = "max" then
          match args with
          | a :: b :: _ =>
              match prev.evalExpr a env with
              | none => none
              | some (.error er, env₁) => some (.error er, env₁)
              | some (.ok av, env₁) =>
                  match prev.evalExpr b env₁ with
                  | none => none
                  | some (.error er, env₂) => some (.error er, env₂)
                  | some (.ok bv, env₂) =>
                      let pick {α : Type} [LinearOrder α] (x y : α) : α :=
                        if name = "min" then min x y else max x y
                      match av, bv with
                      | .int x, .int y => some (.ok (.int (pick x y)), env₂)
                      | .float x, .float y => some (.ok (.float (pick x y)), env₂)
                      | .int x, .float y =>
                          some (.ok (.float (pick (x : Rat) y)), env₂)
                      | .float x, .int y =>
                          some (.ok (.float (pick x (y : Rat))), env₂)
                      | _, _ =>
                          some (.error (RuntimeError.new
                            (name ++ "() requires numeric arguments")), env₂)
          | _ =>
              some (.error (RuntimeError.new
                (name ++ "() requires 2 arguments")), env)
        else if name = "floor" ∨ name = "ceil" ∨ name = "round" then
          match args with
          | [] =>
              some (.error (RuntimeError.new (name ++ "() requires 1 argument")), env)
          | a :: _ =>
              match prev.evalExpr a env with
              | none => none
              | some (.error er, env₁) => some (.error er, env₁)
              | some (.ok v, env₁) =>
                  match v with
                  | .float f =>
                      let r : Int :=
                        if name = "floor" then ratFloorI f
                        else if name = "ceil" then ratCeilI f
                        else ratRoundI f
                      some (.ok (.int r), env₁)
                  | .int i => some (.ok (.int i), env₁)
                  | _ =>
                      some (.error (RuntimeError.new
                        (name ++ "() requires numeric argument")), env₁)
        else if name = "sqrt" then
          match args with
          | [] => some (.error (RuntimeError.new "sqrt() requires 1 argument"), env)
          | a :: _ =>
              match prev.evalExpr a env with
              | none => none
              | some (.error er, env₁) => some (.error er, env₁)
              | some (.ok v, env₁) =>
                  match v with
                  | .float f =>
                      if f < 0 then
                        some (.error (RuntimeError.new
                          "sqrt() requires non-negative argument"), env₁)
                      else some (.ok (.float (ratSqrtModel f)), env₁)
                  | .int i =>
                      if i < 0 then
                        some (.error (RuntimeError.new
                          "sqrt() requires non-negative argument"), env₁)
                      else some (.ok (.float (ratSqrtModel (i : Rat))), env₁)
                  | _ =>
                      some (.error (RuntimeError.new
                        "sqrt() requires numeric argument"), env₁)
        else if name = "pow" then
          match args with
          | a :: b :: _ =>
              match prev.evalExpr a env with
              | none => none
              | some (.error er, env₁) => some (.error er, env₁)
              | some (.ok base, env₁) =>
                  match prev.evalExpr b env₁ with
                  | none => none
                  | some (.error er, env₂) => some (.error er, env₂)
                  | some (.ok expo, env₂) =>
                      match base, expo with
                      | .float bb, .float ee =>
                          some (.ok (.float (ratPowF bb ee)), env₂)
                      | .float bb, .int ee =>
                          some (.ok (.float (bb ^ i64ToI32 ee)), env₂)
                      | .int bb, .float ee =>
                          some (.ok (.float (ratPowF (bb : Rat) ee)), env₂)
                      | .int bb, .int ee =>
                          if 0 ≤ ee ∧ ee ≤ 2 ^ 31 - 1 then
                            some (.ok (.float ((bb : Rat) ^ i64ToI32 ee)), env₂)
                          else
                            some (.ok (.float (ratPowF (bb : Rat) (ee : Rat))), env₂)
                      | _, _ =>
                          some (.error (RuntimeError.new
                            "pow() requires numeric arguments"), env₂)
          | _ => some (.error (RuntimeError.new "pow() requires 2 arguments"), env)
        else if name = "substring" then
          match args with
          | a :: b :: c :: _ =>
              match prev.evalExpr a env with
              | none => none
              | some (.error er, env₁) => some (.error er, env₁)
              | some (.ok sv, env₁) =>
                  match prev.evalExpr b env₁ with
                  | none => none
                  | some (.error er, env₂) => some (.error er, env₂)
                  | some (.ok startv, env₂) =>
                      match prev.evalExpr c env₂ with
                      | none => none
                      | some (.error er, env₃) => some (.error er, env₃)
                      | some (.ok stopv, env₃) =>
                          match sv, startv, stopv with
                          | .str s, .int st, .int en =>
                              some (.ok (.str (substringClamped s st en)), env₃)
                          | _, _, _ =>
                              some (.error (RuntimeError.new
                                "substring() requires (string, int, int)"), env₃)
          | _ =>
              some (.error (RuntimeError.new
                "substring() requires 3 arguments (string, start, end)"), env)
        else if name = "contains" then
          match args with
          | a :: b :: _ =>
              match prev.evalExpr a env with
              | none => none
              | some (.error er, env₁) => some (.error er, env₁)
              | some (.ok sv, env₁) =>
                  match prev.evalExpr b env₁ with
                  | none => none
                  | some (.error er, env₂) => some (.error er, env₂)
                  | some (.ok subv, env₂) =>
                      match sv, subv with
                      | .str s, .str sub =>
                          some (.ok (.bool (strContains s sub)), env₂)
                      | _, _ =>
                          some (.error (RuntimeError.new
                            "contains() requires two string arguments"), env₂)
          | _ =>
              some (.error (RuntimeError.new
                "contains() requires 2 arguments"), env)
        else if name = "toUpper" ∨ name = "toLower" then
          match args with
          | [] =>
              some (.error (RuntimeError.new (name ++ "() requires 1 argument")), env)
          | a :: _ =>
              match prev.evalExpr a env with
              | none => none
              | some (.error er, env₁) => some (.error er, env₁)
              | some (.ok v, env₁) =>
                  match v with
                  | .str s =>
                      some (.ok (.str (if name = "toUpper" then s.toUpper
                        else s.toLower)), env₁)
                  | _ =>
                      some (.error (RuntimeError.new
                        (name ++ "() requires string argument")), env₁)
        else
          some (.error (RuntimeError.new
            ("unknown built-in function: " ++ name)), env)
      evalFunctionBody := fun body env =>
        match body with
        | .block stmts => runStmts prev.evalStmt stmts env
        | _ => prev.evalStmt body env
      evalStmt := fun stmt env =>
        match stmt with
        | .varDecl name init =>
            match prev.evalExpr init env with
            | none => none
            | some (.error er, env₁) => some (.error er, env₁)
            | some (.ok v, env₁) => some (.ok none, env₁.define name v)
        | .assignment name value =>
            match prev.evalExpr value env with
            | none => none
            | some (.error er, env₁) => some (.error er, env₁)
            | some (.ok v, env₁) => some (.ok none, env₁.define name v)
        | .expr ex =>
            match prev.evalExpr ex env with
            | none => none
            | some (.error er, env₁) => some (.error er, env₁)
            | some (.ok _, env₁) => some (.ok none, env₁)
        | .block stmts =>
            let blockEnv := Environment.mk [] (some env)
            match runStmts prev.evalStmt stmts blockEnv with
            | none => none
            | some (.error er, _) => some (.error er, env)
            | some (.ok (some v), _) => some (.ok (some v), env)
            | some (.ok none, _) => some (.ok none, env)
        | .ifS condition thenBranch elifBranches elseBranch =>
            match prev.evalExpr condition env with
            | none => none
            | some (.error er, env₁) => some (.error er, env₁)
            | some (.ok cv, env₁) =>
                if truthy cv then
                  match prev.evalStmt thenBranch env₁ with
                  | none => none
                  | some (.error er, env₂) => some (.error er, env₂)
                  | some (.ok _, env₂) => some (.ok none, env₂)
                else
                  match evalElifs prev.evalExpr prev.evalStmt elifBranches env₁ with
                  | none => none
                  | some (.error er, env₂) => some (.error er, env₂)
                  | some (.ok handled, env₂) =>
                      if handled then some (.ok none, env₂)
                      else
                        match elseBranch with
                        | some elseB =>
                            match prev.evalStmt elseB env₂ with
                            | none => none
                            | some (.error er, env₃) => some (.error er, env₃)
                            | some (.ok _, env₃) => some (.ok none, env₃)
                        | none => some (.ok none, env₂)
        | .whileS condition body => prev.whileLoop condition body env
        | .forS varName startE stopE stepE body =>
            match prev.evalExpr startE env with
            | none => none
            | some (.error er, env₁) => some (.error er, env₁)
            | some (.ok startVal, env₁) =>
                match prev.evalExpr stopE env₁ with
                | none => none
                | some (.error er, env₂) => some (.error er, env₂)
                | some (.ok stopVal, env₂) =>
                    match
                      (match stepE with
                       | some stepExpr =>
                           match prev.evalExpr stepExpr env₂ with
                           | none => none
                           | some (.error er, env₃) => some (.error er, env₃)
                           | some (.ok sv, env₃) => some (.ok sv, env₃)
                       | none => some (.ok (Value.int 1), env₂) : VRes) with
                    | none => none
                    | some (.error er, env₃) => some (.error er, env₃)
                    | some (.ok stepVal, env₃) =>
                        match
                          (match startVal, stopVal, stepVal with
                           | .int s, .int e, .int st => some (s, e, st)
                           | .float s, .float e, .float st =>
                               some (ratToI64 s, ratToI64 e, ratToI64 st)
                           | .int s, .float e, .int st => some (s, ratToI64 e, st)
                           | .float s, .int e, .float st =>
                               some (ratToI64 s, e, ratToI64 st)
                           | _, _, _ => none : Option (Int × Int × Int)) with
                        | none =>
                            some (.error (RuntimeError.new
                              "for loop requires numeric start, end, and step"), env₃)
                        | some (startNum, stopNum, stepNum) =>
                            if stepNum = 0 then
                              some (.error (RuntimeError.new
                                "for loop step cannot be zero"), env₃)
                            else
                              let loopEnv := Environment.mk [] (some env₃)
                              match prev.forLoop varName startNum stopNum stepNum
                                  body loopEnv with
                              | none => none
                              | some (.error er, envE) => some (.error er, envE)
                              | some (.ok r, _) => some (.ok r, env₃)
        | .breakS => some (.ok (some .nil), env)
        | .continueS => some (.ok none, env)
        | .returnS exprOpt =>
            match exprOpt with
            | some ex =>
                match prev.evalExpr ex env with
                | none => none
                | some (.error er, env₁) => some (.error er, env₁)
                | some (.ok v, env₁) => some (.ok (some v), env₁)
            | none => some (.ok (some .nil), env)
        | .funcDecl f =>
            let closure := some env
            some (.ok none, env.define f.name (.function f closure))
        | .objectDecl o =>
            match o with
            | .mk objName members =>
                match evalObjectMembers prev.evalExpr members env [] with
                | none => none
                | some (.error er, env₁) => some (.error er, env₁)
                | some (.ok entries, env₁) =>
                    some (.ok none, env₁.define objName (.table entries))
      whileLoop := fun condition body env =>
        match prev.evalExpr condition env with
        | none => none
        | some (.error er, env₁) => some (.error er, env₁)
        | some (.ok cv, env₁) =>
            if truthy cv then
              match prev.evalStmt body env₁ with
              | none => none
              | some (.error er, env₂) => some (.error er, env₂)
              | some (.ok (some v), env₂) =>
                  match v, body with
                  | .nil, .breakS => some (.ok none, env₂)
                  | _, _ => some (.ok (some v), env₂)
              | some (.ok none, env₂) => prev.whileLoop condition body env₂
            else some (.ok none, env₁)
      forLoop := fun varName i stopNum stepNum body env =>
        let shouldContinue := if stepNum > 0 then i ≤ stopNum else stopNum ≤ i
        if shouldContinue then
          let env₁ := env.define varName (.int i)
          match prev.evalStmt body env₁ with
          | none => none
          | some (.error er, env₂) => some (.error er, env₂)
          | some (.ok (some v), env₂) =>
              match body with
              | .breakS => some (.ok none, env₂)
              | _ => some (.ok (some v), env₂)
          | some (.ok none, env₂) =>
              prev.forLoop varName (i + stepNum) stopNum stepNum body env₂
        else some (.ok none, env)
    }

/-- The statement loop of `Interpreter::eval_program`: run the top-level
statements in order; an unwind value at top level is discarded by the
source's `self.eval_stmt(stmt)?;`. -/
def runProgramGo (evalStmt : Stmt → Environment → URes) :
    List Stmt → Environment → Option (Except RuntimeError Unit × Environment)
  | [], env => some (.ok (), env)
  | s :: rest, env =>
      match evalStmt s env with
      | none => none
      | some (.error e, env') => some (.error e, env')
      | some (.ok _, env') => runProgramGo evalStmt rest env'

/-- `Interpreter::eval_program` with explicit fuel and environment. -/
def Interpreter.evalProgram (fuel : Nat) (stmts : List Stmt)
    (env : Environment) : Option (Except RuntimeError Unit × Environment) :=
  runProgramGo (evalN fuel).evalStmt stmts env

/-- What the source's tests observe: run the program on a fresh
`Interpreter::new()` environment and, on success, read a global with
`get_global`; `none` when the run errors (or fuel runs out). -/
def finalBinding (fuel : Nat) (stmts : List Stmt) (name : String) :
    Option Value :=
  match Interpreter.evalProgram fuel stmts Interpreter.initialEnv with
  | some (.ok (), env) => env.get name
  | _ => none

/-! ## Concrete programs used by the claims

Where a claim quotes surface syntax that the shipped parser cannot accept
(the parser's `func` rule demands a second `:` before the body block, and
has no `for`/`break`/`continue` cases at all), the program is given as the
AST the quoted syntax evidently denotes, matching `ast.rs`.
-/

/-- AST of `var x = 10; func f(): func g(n): return x + n; end return g;
end var r = f()(5);` (spec §8, claim C6). -/
def closureProg : List Stmt :=
  [.varDecl "x" (.literal (.int 10)),
   .funcDecl (.mk "f" [] (.block
     [.funcDecl (.mk "g" ["n"] (.block
        [.returnS (some (.binary (.ident "x") .add (.ident "n")))])),
      .returnS (some (.ident "g"))])),
   .varDecl "r" (.call (.call (.ident "f") []) [.literal (.int 5)])]

/-- AST of `var x = 1; { var x = 2; }` (spec §8, claim C7). -/
def shadowProg : List Stmt :=
  [.varDecl "x" (.literal (.int 1)),
   .block [.varDecl "x" (.literal (.int 2))]]

/-- AST of `func f(): { while true do { break; } end return 1; } end
var r = f();` — the loop body is a block containing `break`, the only form
loop bodies take in `ast.rs`-shaped programs produced from blocks. -/
def breakProg : List Stmt :=
  [.funcDecl (.mk "f" [] (.block
     [.whileS (.literal (.bool true)) (.block [.breakS]),
      .returnS (some (.literal (.int 1)))])),
   .varDecl "r" (.call (.ident "f") [])]

/-- AST of `func f(): { for i = 1 to 1 do { continue; return 99; } end
return 0; } end var r = f();` — if `continue` skipped to the next
iteration the `return 99` would never run and `f` would return 0. -/
def continueProg : List Stmt :=
  [.funcDecl (.mk "f" [] (.block
     [.forS "i" (.literal (.int 1)) (.literal (.int 1)) none
        (.block [.continueS, .returnS (some (.literal (.int 99)))]),
      .returnS (some (.literal (.int 0)))])),
   .varDecl "r" (.call (.ident "f") [])]

/-- AST of `func f(): { nosuch; } end f();` — the body raises an
undefined-identifier RuntimeError (claim C3). -/
def errorCallProg : List Stmt :=
  [.funcDecl (.mk "f" [] (.block [.expr (.ident "nosuch")])),
   .expr (.call (.ident "f") [])]

/-- The `Function` value bound to `f` by `errorCallProg`'s declaration:
its closure is the root environment captured at declaration time. -/
def errorCallFVal : Value :=
  .function (.mk "f" [] (.block [.expr (.ident "nosuch")]))
    (some Interpreter.initialEnv)

/-- AST of `func f(): { x = 5; nosuch; } end f();` (claim C10): the
assignment inside the call body installs `x` in the call environment, and
the body then raises an undefined-identifier RuntimeError, so `eval_call`
exits on its error path — the one that skips the restore. -/
def c10Prog : List Stmt :=
  [.funcDecl (.mk "f" [] (.block
     [.assignment "x" (.literal (.int 5)), .expr (.ident "nosuch")])),
   .expr (.call (.ident "f") [])]

/-- The `Function` value bound to `f` by `c10Prog`'s declaration: its
closure is the root environment captured at declaration time. -/
def c10FVal : Value :=
  .function (.mk "f" [] (.block
     [.assignment "x" (.literal (.int 5)), .expr (.ident "nosuch")]))
    (some Interpreter.initialEnv)

/-- A caller environment binding `f` to a parameterless function with an
empty block body, used to instantiate C10's successful-call conjunct. -/
def c10CallEnv : Environment :=
  Environment.mk
    [("f", Value.function (.mk "f" [] (.block []))
       (some (Environment.mk [] none)))]
    none

/-- AST of `false and (1 / 0 == 0)` (claim C2): under short-circuiting the
right operand would never run. -/
def andRightErrExpr : Expr :=
  .binary (.literal (.bool false)) .and
    (.binary (.binary (.literal (.int 1)) .div (.literal (.int 0)))
      .equal (.literal (.int 0)))

/-- AST of `true or (1 / 0)` (claim C2). -/
def orRightErrExpr : Expr :=
  .binary (.literal (.bool true)) .or
    (.binary (.literal (.int 1)) .div (.literal (.int 0)))

/-! ## Step lemmas

Each lemma records, definitionally, what one fuel level of `evalN` /
`parseN` does on one statement or expression form; they let the theorems
below rewrite without unfolding the whole evaluator.
-/

/-- One step of `eval_stmt` on `Stmt::Block`: the saved environment is
reinstalled on every exit path of the block. -/
theorem evalStmt_block_step (n : Nat) (stmts : List Stmt) (env : Environment) :
    (evalN (n + 1)).evalStmt (.block stmts) env =
      match runStmts (evalN n).evalStmt stmts (Environment.mk [] (some env)) with
      | none => none
      | some (.error er, _) => some (.error er, env)
      | some (.ok (some v), _) => some (.ok (some v), env)
      | some (.ok none, _) => some (.ok none, env) := rfl

/-- One step of `eval_stmt` on `Stmt::Assignment`: evaluate, then `define`
into the current (innermost) environment. -/
theorem evalStmt_assignment_step (n : Nat) (name : String) (e : Expr)
    (env : Environment) :
    (evalN (n + 1)).evalStmt (.assignment name e) env =
      match (evalN n).evalExpr e env with
      | none => none
      | some (.error er, env₁) => some (.error er, env₁)
      | some (.ok v, env₁) => some (.ok none, env₁.define name v) := rfl

/-- One step of `eval_call`: evaluate the callee, dispatch built-ins, bind
the parameters, run the body in the call environment — and give back the
caller-side environment `envA` only on the `.ok` path; on the error path
the environment returned is `envB`, whatever the body left installed. -/
theorem evalCall_step (n : Nat) (callee : Expr) (args : List Expr)
    (env : Environment) :
    (evalN (n + 1)).evalCall callee args env =
      match (evalN n).evalExpr callee env with
      | none => none
      | some (.error er, env₁) => some (.error er, env₁)
      | some (.ok calleeVal, env₁) =>
          match calleeVal with
          | .builtinFunction name => (evalN n).callBuiltin name args env₁
          | .function decl closure =>
              let parent : Option Environment :=
                match closure with
                | some captured => some captured
                | none => some env₁
              match bindParams (evalN n).evalExpr decl.params args env₁ [] with
              | none => none
              | some (.error er, envA) => some (.error er, envA)
              | some (.ok callVals, envA) =>
                  let callEnv := Environment.mk callVals parent
                  match (evalN n).evalFunctionBody decl.body callEnv with
                  | none => none
                  | some (.error er, envB) => some (.error er, envB)
                  | some (.ok resultOpt, _) =>
                      some (.ok (resultOpt.getD .nil), envA)
          | _ =>
              some (.error (RuntimeError.new
                "attempt to call non-function"), env₁) := rfl

/-- One step of `eval_expr` on `Expr::Member`. -/
theorem evalExpr_member_step (n : Nat) (e : Expr) (k : String)
    (env : Environment) :
    (evalN (n + 1)).evalExpr (.member e k) env =
      match (evalN n).evalExpr e env with
      | none => none
      | some (.error er, env₁) => some (.error er, env₁)
      | some (.ok ov, env₁) =>
          match ov with
          | .table entries => some (.ok ((lookupA entries k).getD .nil), env₁)
          | _ => some (.error (RuntimeError.new
              ("cannot access member \x27" ++ k ++ "\x27 on non-table")), env₁) := rfl

/-- One step of `eval_expr` on `Expr::Index`. -/
theorem evalExpr_index_step (n : Nat) (e ie : Expr) (env : Environment) :
    (evalN (n + 1)).evalExpr (.index e ie) env =
      match (evalN n).evalExpr e env with
      | none => none
      | some (.error er, env₁) => some (.error er, env₁)
      | some (.ok ov, env₁) =>
          match (evalN n).evalExpr ie env₁ with
          | none => none
          | some (.error er, env₂) => some (.error er, env₂)
          | some (.ok iv, env₂) =>
              match ov, iv with
              | .table entries, .str key =>
                  some (.ok ((lookupA entries key).getD .nil), env₂)
              | .table _, _ =>
                  some (.error (RuntimeError.new
                    "table index must be a string"), env₂)
              | _, _ =>
                  some (.error (RuntimeError.new "cannot index non-table"), env₂) := rfl

/-- One step of `eval_expr` on `Expr::Ident`. -/
theorem evalExpr_ident_step (n : Nat) (k : String) (env : Environment) :
    (evalN (n + 1)).evalExpr (.ident k) env =
      match env.get k with
      | some v => some (.ok v, env)
      | none => some (.error (RuntimeError.new
          ("Undefined identifier \x27" ++ k ++ "\x27")), env) := rfl

/-- One step of `eval_expr` on a literal. -/
theorem evalExpr_literal_step (n : Nat) (lit : Literal) (env : Environment) :
    (evalN (n + 1)).evalExpr (.literal lit) env =
      some (.ok (evalLiteral lit), env) := rfl

/-- One step of `parse_program`: run the statement loop, then return the
`Program` exactly when the accumulated error list is empty, and otherwise
the taken (non-empty) error list and no AST. -/
theorem parseProgram_step (n : Nat) (st : ParserState) :
    (parseN (n + 1)).parseProgram st =
      match (parseN n).parseProgramLoop [] st with
      | none => none
      | some (body, st₁) =>
          if st₁.errors = [] then some (.ok ⟨body⟩, st₁)
          else some (.error st₁.errors, { st₁ with errors := [] }) := rfl

/-- `Environment::define` only touches the environment's own map: the
parent chain is returned untouched. -/
theorem define_parent (env : Environment) (name : String) (v : Value) :
    (env.define name v).parent = env.parent := by
  cases env
  rfl

/-- `Stmt::Block` restores `self.env` on every exit path: whatever a block
evaluation returns — normal completion, unwind value, or error — the
environment afterwards is exactly the one from before the block, so every
binding `define`d inside the block is discarded. -/
theorem block_env_restored (fuel : Nat) (stmts : List Stmt) (env : Environment)
    (r : Except RuntimeError (Option Value)) (env' : Environment)
    (h : (evalN fuel).evalStmt (.block stmts) env = some (r, env')) :
    env' = env := by
  match fuel with
  | 0 => exact absurd h (by simp [evalN, evalsNone])
  | n + 1 =>
    rw [evalStmt_block_step] at h
    cases hs : runStmts (evalN n).evalStmt stmts (Environment.mk [] (some env)) with
    | none => rw [hs] at h; exact absurd h (by simp)
    | some p =>
      obtain ⟨res, env₂⟩ := p
      rw [hs] at h
      match res with
      | .error er => simp only [Option.some.injEq, Prod.mk.injEq] at h; exact h.2.symm
      | .ok (some v) => simp only [Option.some.injEq, Prod.mk.injEq] at h; exact h.2.symm
      | .ok none => simp only [Option.some.injEq, Prod.mk.injEq] at h; exact h.2.symm

/-! ## Error-list monotonicity of the parser

The recovery design records errors by appending to `Parser::errors` and
nothing in the parsing functions ever removes one (only `parse_program`'s
final `mem::take` empties the list, after the Ok/Err decision). The
following development proves this: every parsing function leaves the
incoming error list as a prefix of the outgoing one. Together with the
final decision in `parse_program` (Ok exactly when the list is empty) this
gives claim C9's guarantee: once any statement fails to parse, the
recorded error survives to the end and no `Program` is returned.
-/

/-- Monotonicity shape for plain parsing functions. -/
def MonoF {α : Type} (f : ParserState → PRes α) : Prop :=
  ∀ st r st', f st = some (r, st') → st.errors <+: st'.errors

/-- Monotonicity shape for parsing loops with an accumulator. -/
def MonoA {β α : Type} (f : β → ParserState → PRes α) : Prop :=
  ∀ b st r st', f b st = some (r, st') → st.errors <+: st'.errors

/-- Monotonicity shape for loops returning a bare pair. -/
def MonoL {β γ : Type} (f : β → ParserState → Option (γ × ParserState)) :
    Prop :=
  ∀ b st out st', f b st = some (out, st') → st.errors <+: st'.errors

/-- Error-preservation shape for `synchronize`-like functions. -/
def MonoEq (f : ParserState → Option ParserState) : Prop :=
  ∀ st st', f st = some st' → st'.errors = st.errors

/-- `Parser::advance` does not touch the error list. -/
theorem advanceP_errors (st : ParserState) : (advanceP st).errors = st.errors :=
  rfl

/-- `Parser::consume` does not touch the error list. -/
theorem consumeP_errs {st : ParserState} {k : TokenKind} {m : String}
    {r : Except ParseError Unit} {st' : ParserState}
    (h : consumeP st k m = (r, st')) : st'.errors = st.errors := by
  have h2 := congrArg (fun p => (Prod.snd p).errors) h
  simp only at h2
  rw [← h2]
  unfold consumeP
  split <;> rfl

/-- `syncLoop` preserves the error list. -/
theorem mono_syncLoop (n : Nat) (ih : MonoEq (parseN n).syncLoop) :
    MonoEq (parseN (n + 1)).syncLoop := by
  intro st st' h
  simp only [parseN] at h
  split at h
  · simp only [Option.some.injEq] at h
    rw [← h]
  · split at h <;>
      first
      | (simp only [Option.some.injEq] at h; rw [← h]; try rfl)
      | (have hm := ih _ _ h; exact hm)

/-- `synchronize` preserves the error list. -/
theorem mono_sync (n : Nat) (ih : MonoEq (parseN n).syncLoop) :
    MonoEq (parseN (n + 1)).synchronize := by
  intro st st' h
  simp only [parseN] at h
  have hm := ih _ _ h
  exact hm

/-- The parameter-list loop only extends the error list. -/
theorem mono_paramsLoop (n : Nat) (ih : MonoA (parseN n).parseParamsLoop) :
    MonoA (parseN (n + 1)).parseParamsLoop := by
  intro acc st r st' h
  simp only [parseN] at h
  split at h
  · split at h
    · have hm := ih _ _ _ _ h
      exact hm
    · simp only [Option.some.injEq, Prod.mk.injEq] at h
      rw [← h.2]
      exact List.prefix_rfl
  · simp only [Option.some.injEq, Prod.mk.injEq] at h
    rw [← h.2]

/-- The `or` chaining loop only extends the error list. -/
theorem mono_orLoop (n : Nat) (ihA : MonoF (parseN n).parseAnd)
    (ihL : MonoA (parseN n).parseOrLoop) :
    MonoA (parseN (n + 1)).parseOrLoop := by
  intro left st r st' h
  simp only [parseN] at h
  split at h
  · split at h
    · exact Option.noConfusion h
    · rename_i e st₁ heq
      simp only [Option.some.injEq, Prod.mk.injEq] at h
      rw [← h.2]
      have hm := ihA _ _ _ heq
      exact hm
    · rename_i right st₁ heq
      have hm := (ihA _ _ _ heq).trans (ihL _ _ _ _ h)
      exact hm
  · simp only [Option.some.injEq, Prod.mk.injEq] at h
    rw [← h.2]

/-- `parse_or` only extends the error list. -/
theorem mono_parseOr (n : Nat) (ihA : MonoF (parseN n).parseAnd)
    (ihL : MonoA (parseN n).parseOrLoop) :
    MonoF (parseN (n + 1)).parseOr := by
  intro st r st' h
  simp only [parseN] at h
  split at h
  · exact Option.noConfusion h
  · rename_i e st₁ heq
    simp only [Option.some.injEq, Prod.mk.injEq] at h
    rw [← h.2]
    exact ihA _ _ _ heq
  · rename_i left st₁ heq
    exact (ihA _ _ _ heq).trans (ihL _ _ _ _ h)

/-- The `and` chaining loop only extends the error list. -/
theorem mono_andLoop (n : Nat) (ihE : MonoF (parseN n).parseEquality)
    (ihL : MonoA (parseN n).parseAndLoop) :
    MonoA (parseN (n + 1)).parseAndLoop := by
  intro left st r st' h
  simp only [parseN] at h
  split at h
  · split at h
    · exact Option.noConfusion h
    · rename_i e st₁ heq
      simp only [Option.some.injEq, Prod.mk.injEq] at h
      rw [← h.2]
      have hm := ihE _ _ _ heq
      exact hm
    · rename_i right st₁ heq
      have hm := (ihE _ _ _ heq).trans (ihL _ _ _ _ h)
      exact hm
  · simp only [Option.some.injEq, Prod.mk.injEq] at h
    rw [← h.2]

/-- `parse_and` only extends the error list. -/
theorem mono_parseAnd (n : Nat) (ihE : MonoF (parseN n).parseEquality)
    (ihL : MonoA (parseN n).parseAndLoop) :
    MonoF (parseN (n + 1)).parseAnd := by
  intro st r st' h
  simp only [parseN] at h
  split at h
  · exact Option.noConfusion h
  · rename_i e st₁ heq
    simp only [Option.some.injEq, Prod.mk.injEq] at h
    rw [← h.2]
    exact ihE _ _ _ heq
  · rename_i left st₁ heq
    exact (ihE _ _ _ heq).trans (ihL _ _ _ _ h)

/-- The equality chaining loop only extends the error list. -/
theorem mono_equalityLoop (n : Nat) (ihC : MonoF (parseN n).parseComparison)
    (ihL : MonoA (parseN n).parseEqualityLoop) :
    MonoA (parseN (n + 1)).parseEqualityLoop := by
  intro left st r st' h
  simp only [parseN] at h
  split at h
  · split at h
    · exact Option.noConfusion h
    · rename_i e st₁ heq
      simp only [Option.some.injEq, Prod.mk.injEq] at h
      rw [← h.2]
      have hm := ihC _ _ _ heq
      exact hm
    · rename_i right st₁ heq
      have hm := (ihC _ _ _ heq).trans (ihL _ _ _ _ h)
      exact hm
  · simp only [Option.some.injEq, Prod.mk.injEq] at h
    rw [← h.2]

/-- `parse_equality` only extends the error list. -/
theorem mono_parseEquality (n : Nat) (ihC : MonoF (parseN n).parseComparison)
    (ihL : MonoA (parseN n).parseEqualityLoop) :
    MonoF (parseN (n + 1)).parseEquality := by
  intro st r st' h
  simp only [parseN] at h
  split at h
  · exact Option.noConfusion h
  · rename_i e st₁ heq
    simp only [Option.some.injEq, Prod.mk.injEq] at h
    rw [← h.2]
    exact ihC _ _ _ heq
  · rename_i left st₁ heq
    exact (ihC _ _ _ heq).trans (ihL _ _ _ _ h)

/-- The comparison chaining loop only extends the error list. -/
theorem mono_comparisonLoop (n : Nat) (ihT : MonoF (parseN n).parseTerm)
    (ihL : MonoA (parseN n).parseComparisonLoop) :
    MonoA (parseN (n + 1)).parseComparisonLoop := by
  intro left st r st' h
  simp only [parseN] at h
  split at h
  · split at h
    · exact Option.noConfusion h
    · rename_i e st₁ heq
      simp only [Option.some.injEq, Prod.mk.injEq] at h
      rw [← h.2]
      have hm := ihT _ _ _ heq
      exact hm
    · rename_i right st₁ heq
      have hm := (ihT _ _ _ heq).trans (ihL _ _ _ _ h)
      exact hm
  · simp only [Option.some.injEq, Prod.mk.injEq] at h
    rw [← h.2]

/-- `parse_comparison` only extends the error list. -/
theorem mono_parseComparison (n : Nat) (ihT : MonoF (parseN n).parseTerm)
    (ihL : MonoA (parseN n).parseComparisonLoop) :
    MonoF (parseN (n + 1)).parseComparison := by
  intro st r st' h
  simp only [parseN] at h
  split at h
  · exact Option.noConfusion h
  · rename_i e st₁ heq
    simp only [Option.some.injEq, Prod.mk.injEq] at h
    rw [← h.2]
    exact ihT _ _ _ heq
  · rename_i left st₁ heq
    exact (ihT _ _ _ heq).trans (ihL _ _ _ _ h)

/-- The additive chaining loop only extends the error list. -/
theorem mono_termLoop (n : Nat) (ihF : MonoF (parseN n).parseFactor)
    (ihL : MonoA (parseN n).parseTermLoop) :
    MonoA (parseN (n + 1)).parseTermLoop := by
  intro left st r st' h
  simp only [parseN] at h
  split at h
  · split at h
    · exact Option.noConfusion h
    · rename_i e st₁ heq
      simp only [Option.some.injEq, Prod.mk.injEq] at h
      rw [← h.2]
      have hm := ihF _ _ _ heq
      exact hm
    · rename_i right st₁ heq
      have hm := (ihF _ _ _ heq).trans (ihL _ _ _ _ h)
      exact hm
  · simp only [Option.some.injEq, Prod.mk.injEq] at h
    rw [← h.2]

/-- `parse_term` only extends the error list. -/
theorem mono_parseTerm (n : Nat) (ihF : MonoF (parseN n).parseFactor)
    (ihL : MonoA (parseN n).parseTermLoop) :
    MonoF (parseN (n + 1)).parseTerm := by
  intro st r st' h
  simp only [parseN] at h
  split at h
  · exact Option.noConfusion h
  · rename_i e st₁ heq
    simp only [Option.some.injEq, Prod.mk.injEq] at h
    rw [← h.2]
    exact ihF _ _ _ heq
  · rename_i left st₁ heq
    exact (ihF _ _ _ heq).trans (ihL _ _ _ _ h)

/-- The multiplicative chaining loop only extends the error list. -/
theorem mono_factorLoop (n : Nat) (ihU : MonoF (parseN n).parseUnary)
    (ihL : MonoA (parseN n).parseFactorLoop) :
    MonoA (parseN (n + 1)).parseFactorLoop := by
  intro left st r st' h
  simp only [parseN] at h
  split at h
  · split at h
    · exact Option.noConfusion h
    · rename_i e st₁ heq
      simp only [Option.some.injEq, Prod.mk.injEq] at h
      rw [← h.2]
      have hm := ihU _ _ _ heq
      exact hm
    · rename_i right st₁ heq
      have hm := (ihU _ _ _ heq).trans (ihL _ _ _ _ h)
      exact hm
  · simp only [Option.some.injEq, Prod.mk.injEq] at h
    rw [← h.2]

/-- `parse_factor` only extends the error list. -/
theorem mono_parseFactor (n : Nat) (ihU : MonoF (parseN n).parseUnary)
    (ihL : MonoA (parseN n).parseFactorLoop) :
    MonoF (parseN (n + 1)).parseFactor := by
  intro st r st' h
  simp only [parseN] at h
  split at h
  · exact Option.noConfusion h
  · rename_i e st₁ heq
    simp only [Option.some.injEq, Prod.mk.injEq] at h
    rw [← h.2]
    exact ihU _ _ _ heq
  · rename_i left st₁ heq
    exact (ihU _ _ _ heq).trans (ihL _ _ _ _ h)

/-- `parse_unary` only extends the error list. -/
theorem mono_parseUnary (n : Nat) (ihU : MonoF (parseN n).parseUnary)
    (ihP : MonoF (parseN n).parsePrimary) :
    MonoF (parseN (n + 1)).parseUnary := by
  intro st r st' h
  simp only [parseN] at h
  split at h
  · split at h
    · exact Option.noConfusion h
    · rename_i e st₁ heq
      simp only [Option.some.injEq, Prod.mk.injEq] at h
      rw [← h.2]
      have hm := ihU _ _ _ heq
      exact hm
    · rename_i ex st₁ heq
      simp only [Option.some.injEq, Prod.mk.injEq] at h
      rw [← h.2]
      have hm := ihU _ _ _ heq
      exact hm
  · split at h
    · exact Option.noConfusion h
    · rename_i e st₁ heq
      simp only [Option.some.injEq, Prod.mk.injEq] at h
      rw [← h.2]
      have hm := ihU _ _ _ heq
      exact hm
    · rename_i ex st₁ heq
      simp only [Option.some.injEq, Prod.mk.injEq] at h
      rw [← h.2]
      have hm := ihU _ _ _ heq
      exact hm
  · exact ihP _ _ _ h

/-- `parse_expression` only extends the error list. -/
theorem mono_parseExpression (n : Nat) (ihO : MonoF (parseN n).parseOr) :
    MonoF (parseN (n + 1)).parseExpression := by
  intro st r st' h
  simp only [parseN] at h
  exact ihO _ _ _ h

/-- The call-argument loop only extends the error list. -/
theorem mono_argsLoop (n : Nat) (ihE : MonoF (parseN n).parseExpression)
    (ihL : MonoA (parseN n).parseArgsLoop) :
    MonoA (parseN (n + 1)).parseArgsLoop := by
  intro acc st r st' h
  simp only [parseN] at h
  split at h
  · exact Option.noConfusion h
  · rename_i e st₁ heq
    simp only [Option.some.injEq, Prod.mk.injEq] at h
    rw [← h.2]
    exact ihE _ _ _ heq
  · rename_i arg st₁ heq
    split at h
    · exact (ihE _ _ _ heq).trans
        (by have hm := ihL _ _ _ _ h; exact hm)
    · simp only [Option.some.injEq, Prod.mk.injEq] at h
      rw [← h.2]
      exact ihE _ _ _ heq

/-- The postfix chaining loop only extends the error list. -/
theorem mono_postfixLoop (n : Nat) (ihE : MonoF (parseN n).parseExpression)
    (ihA : MonoA (parseN n).parseArgsLoop)
    (ihL : MonoA (parseN n).parsePostfixLoop) :
    MonoA (parseN (n + 1)).parsePostfixLoop := by
  intro acc st r st' h
  simp only [parseN] at h
  split at h
  · split at h
    · exact Option.noConfusion h
    · rename_i e st₁ heq
      simp only [Option.some.injEq, Prod.mk.injEq] at h
      rw [← h.2]
      split at heq
      · have hm := ihA _ _ _ _ heq
        exact hm
      · simp at heq
    · rename_i args st₁ heq
      have h₁ : st.errors <+: st₁.errors := by
        split at heq
        · have hm := ihA _ _ _ _ heq
          exact hm
        · simp only [Option.some.injEq, Prod.mk.injEq] at heq
          rw [← heq.2]
          exact List.prefix_rfl
      split at h
      · rename_i e st₂ heq₂
        simp only [Option.some.injEq, Prod.mk.injEq] at h
        rw [← h.2, consumeP_errs heq₂]
        exact h₁
      · rename_i u st₂ heq₂
        have h₂ := ihL _ _ _ _ h
        rw [consumeP_errs heq₂] at h₂
        exact h₁.trans h₂
  · split at h
    · have hm := ihL _ _ _ _ h
      exact hm
    · simp only [Option.some.injEq, Prod.mk.injEq] at h
      rw [← h.2]
      exact List.prefix_rfl
  · split at h
    · exact Option.noConfusion h
    · rename_i e st₁ heq
      simp only [Option.some.injEq, Prod.mk.injEq] at h
      rw [← h.2]
      have hm := ihE _ _ _ heq
      exact hm
    · rename_i idx st₁ heq
      have h₁ : st.errors <+: st₁.errors := by
        have hm := ihE _ _ _ heq
        exact hm
      split at h
      · rename_i e st₂ heq₂
        simp only [Option.some.injEq, Prod.mk.injEq] at h
        rw [← h.2, consumeP_errs heq₂]
        exact h₁
      · rename_i u st₂ heq₂
        have h₂ := ihL _ _ _ _ h
        rw [consumeP_errs heq₂] at h₂
        exact h₁.trans h₂
  · simp only [Option.some.injEq, Prod.mk.injEq] at h
    rw [← h.2]

/-- `parse_primary` only extends the error list. -/
theorem mono_parsePrimary (n : Nat) (ihE : MonoF (parseN n).parseExpression)
    (ihT : MonoF (parseN n).parseTableLiteral)
    (ihL : MonoA (parseN n).parsePostfixLoop) :
    MonoF (parseN (n + 1)).parsePrimary := by
  intro st r st' h
  simp only [parseN] at h
  split at h
  · exact Option.noConfusion h
  · rename_i e st₁ heq
    simp only [Option.some.injEq, Prod.mk.injEq] at h
    rw [← h.2]
    split at heq <;>
      first
      | (simp only [Option.some.injEq, Prod.mk.injEq] at heq;
         rw [← heq.2]; try exact List.prefix_rfl)
      | (split at heq <;>
          first
          | exact Option.noConfusion heq
          | (rename_i heq₂;
             simp only [Option.some.injEq, Prod.mk.injEq] at heq;
             rw [← heq.2];
             first
             | (have hm := ihE _ _ _ heq₂; exact hm)
             | (have hm := ihT _ _ _ heq₂; exact hm))
          | (rename_i hex st₂ heq₂;
             split at heq <;>
               (rename_i heq₃;
                simp only [Option.some.injEq, Prod.mk.injEq] at heq;
                rw [← heq.2, consumeP_errs heq₃];
                have hm := ihE _ _ _ heq₂; exact hm)))
  · rename_i ex st₁ heq
    have h₁ : st.errors <+: st₁.errors := by
      split at heq <;>
        first
        | (simp only [Option.some.injEq, Prod.mk.injEq] at heq;
           rw [← heq.2]; try exact List.prefix_rfl)
        | (split at heq <;>
            first
            | exact Option.noConfusion heq
            | (rename_i heq₂;
               simp only [Option.some.injEq, Prod.mk.injEq] at heq;
               rw [← heq.2];
               first
               | (have hm := ihE _ _ _ heq₂; exact hm)
               | (have hm := ihT _ _ _ heq₂; exact hm))
            | (rename_i hex st₂ heq₂;
               split at heq <;>
                 (rename_i heq₃;
                  simp only [Option.some.injEq, Prod.mk.injEq] at heq;
                  rw [← heq.2, consumeP_errs heq₃];
                  have hm := ihE _ _ _ heq₂; exact hm)))
    exact h₁.trans (ihL _ _ _ _ h)

/-- The table-literal field loop only extends the error list. -/
theorem mono_fieldsLoop (n : Nat) (ihE : MonoF (parseN n).parseExpression)
    (ihL : MonoA (parseN n).parseFieldsLoop) :
    MonoA (parseN (n + 1)).parseFieldsLoop := by
  intro acc st r st' h
  simp only [parseN] at h
  split at h
  · simp only [Option.some.injEq, Prod.mk.injEq] at h
    rw [← h.2]
  · split at h
    · exact Option.noConfusion h
    · rename_i e st₁ heq
      simp only [Option.some.injEq, Prod.mk.injEq] at h
      rw [← h.2]
      split at heq
      · split at heq
        · split at heq
          · exact Option.noConfusion heq
          · rename_i heq₂
            simp only [Option.some.injEq, Prod.mk.injEq] at heq
            rw [← heq.2]
            have hm := ihE _ _ _ heq₂
            exact hm
          · rename_i heq₂
            simp only [Option.some.injEq, Prod.mk.injEq] at heq
            rw [← heq.2]
            have hm := ihE _ _ _ heq₂
            exact hm
        · simp at heq
      · split at heq
        · exact Option.noConfusion heq
        · rename_i heq₂
          simp only [Option.some.injEq, Prod.mk.injEq] at heq
          rw [← heq.2]
          exact ihE _ _ _ heq₂
        · rename_i heq₂
          simp only [Option.some.injEq, Prod.mk.injEq] at heq
          rw [← heq.2]
          exact ihE _ _ _ heq₂
    · rename_i acc₁ st₁ heq
      have h₁ : st.errors <+: st₁.errors := by
        split at heq
        · split at heq
          · split at heq
            · exact Option.noConfusion heq
            · rename_i heq₂
              simp only [Option.some.injEq, Prod.mk.injEq] at heq
              rw [← heq.2]
              have hm := ihE _ _ _ heq₂
              exact hm
            · rename_i heq₂
              simp only [Option.some.injEq, Prod.mk.injEq] at heq
              rw [← heq.2]
              have hm := ihE _ _ _ heq₂
              exact hm
          · simp only [Option.some.injEq, Prod.mk.injEq] at heq
            rw [← heq.2]
            exact List.prefix_rfl
        · split at heq
          · exact Option.noConfusion heq
          · rename_i heq₂
            simp only [Option.some.injEq, Prod.mk.injEq] at heq
            rw [← heq.2]
            exact ihE _ _ _ heq₂
          · rename_i heq₂
            simp only [Option.some.injEq, Prod.mk.injEq] at heq
            rw [← heq.2]
            exact ihE _ _ _ heq₂
      split at h
      · exact h₁.trans (by have hm := ihL _ _ _ _ h; exact hm)
      · simp only [Option.some.injEq, Prod.mk.injEq] at h
        rw [← h.2]
        exact h₁

/-- `parse_table_literal` only extends the error list. -/
theorem mono_parseTableLiteral (n : Nat)
    (ihL : MonoA (parseN n).parseFieldsLoop) :
    MonoF (parseN (n + 1)).parseTableLiteral := by
  intro st r st' h
  simp only [parseN] at h
  split at h
  · rename_i e st₁ heq
    simp only [Option.some.injEq, Prod.mk.injEq] at h
    rw [← h.2, consumeP_errs heq]
  · rename_i u st₁ heq
    split at h
    · exact Option.noConfusion h
    · rename_i e st₂ heq₂
      simp only [Option.some.injEq, Prod.mk.injEq] at h
      rw [← h.2]
      have hm := ihL _ _ _ _ heq₂
      rw [consumeP_errs heq] at hm
      exact hm
    · rename_i fields st₂ heq₂
      have hm := ihL _ _ _ _ heq₂
      rw [consumeP_errs heq] at hm
      split at h
      · rename_i e st₃ heq₃
        simp only [Option.some.injEq, Prod.mk.injEq] at h
        rw [← h.2, consumeP_errs heq₃]
        exact hm
      · rename_i u₂ st₃ heq₃
        simp only [Option.some.injEq, Prod.mk.injEq] at h
        rw [← h.2, consumeP_errs heq₃]
        exact hm

/-- `parse_var_decl` only extends the error list. -/
theorem mono_parseVarDecl (n : Nat) (ihE : MonoF (parseN n).parseExpression) :
    MonoF (parseN (n + 1)).parseVarDecl := by
  intro st r st' h
  simp only [parseN] at h
  split at h
  · split at h
    · rename_i e st₄ heq
      simp only [Option.some.injEq, Prod.mk.injEq] at h
      rw [← h.2, consumeP_errs heq]
      split <;> first | (split <;> rfl) | rfl
    · rename_i u st₄ heq
      split at h
      · exact Option.noConfusion h
      · rename_i e st₅ heq₂
        simp only [Option.some.injEq, Prod.mk.injEq] at h
        rw [← h.2]
        have hm := ihE _ _ _ heq₂
        rw [consumeP_errs heq] at hm
        refine List.IsPrefix.trans ?_ hm
        split <;> first | (split <;> rfl) | rfl
      · rename_i init st₅ heq₂
        have hm := ihE _ _ _ heq₂
        rw [consumeP_errs heq] at hm
        have h₁ : st.errors <+: st₅.errors := by
          refine List.IsPrefix.trans ?_ hm
          split <;> first | (split <;> rfl) | rfl
        simp only [Option.some.injEq, Prod.mk.injEq] at h
        rw [← h.2]
        split <;> exact h₁
  · simp only [Option.some.injEq, Prod.mk.injEq] at h
    rw [← h.2]
    exact List.prefix_rfl

/-- The block statement loop only extends the error list: a failed inner
statement's error is appended and survives recovery. -/
theorem mono_blockLoop (n : Nat) (ihS : MonoF (parseN n).parseStatement)
    (ihSync : MonoEq (parseN n).synchronize)
    (ihL : MonoL (parseN n).parseBlockLoop) :
    MonoL (parseN (n + 1)).parseBlockLoop := by
  intro acc st out st' h
  simp only [parseN] at h
  split at h
  · simp only [Option.some.injEq, Prod.mk.injEq] at h
    rw [← h.2]
  · split at h
    · exact Option.noConfusion h
    · rename_i s st₁ heq
      exact (ihS _ _ _ heq).trans (by have hm := ihL _ _ _ _ h; exact hm)
    · rename_i e st₁ heq
      split at h
      · exact Option.noConfusion h
      · rename_i st₃ heq₂
        have ha := ihS _ _ _ heq
        have hc := ihSync _ _ heq₂
        have hd := ihL _ _ _ _ h
        rw [hc] at hd
        exact ha.trans ((List.prefix_append _ _).trans hd)

/-- `parse_block` only extends the error list. -/
theorem mono_parseBlock (n : Nat) (ihL : MonoL (parseN n).parseBlockLoop) :
    MonoF (parseN (n + 1)).parseBlock := by
  intro st r st' h
  simp only [parseN] at h
  split at h
  · rename_i e st₁ heq
    simp only [Option.some.injEq, Prod.mk.injEq] at h
    rw [← h.2, consumeP_errs heq]
  · rename_i u st₁ heq
    split at h
    · exact Option.noConfusion h
    · rename_i stmts st₂ heq₂
      have hm := ihL _ _ _ _ heq₂
      rw [consumeP_errs heq] at hm
      split at h <;>
        (rename_i heq₃;
         simp only [Option.some.injEq, Prod.mk.injEq] at h;
         rw [← h.2, consumeP_errs heq₃];
         exact hm)

/-- `parse_return_stmt` only extends the error list. -/
theorem mono_parseReturn (n : Nat) (ihE : MonoF (parseN n).parseExpression) :
    MonoF (parseN (n + 1)).parseReturn := by
  intro st r st' h
  simp only [parseN] at h
  split at h
  · rename_i e st₁ heq
    simp only [Option.some.injEq, Prod.mk.injEq] at h
    rw [← h.2, consumeP_errs heq]
  · rename_i u st₁ heq
    split at h
    · exact Option.noConfusion h
    · rename_i e st₂ heq₂
      simp only [Option.some.injEq, Prod.mk.injEq] at h
      rw [← h.2]
      have h₁ : st.errors <+: st₂.errors := by
        split at heq₂
        · split at heq₂
          · exact Option.noConfusion heq₂
          · rename_i heq₃
            simp only [Option.some.injEq, Prod.mk.injEq] at heq₂
            rw [← heq₂.2]
            have hm := ihE _ _ _ heq₃
            rw [consumeP_errs heq] at hm
            exact hm
          · rename_i heq₃
            simp only [Option.some.injEq, Prod.mk.injEq] at heq₂
            rw [← heq₂.2]
            have hm := ihE _ _ _ heq₃
            rw [consumeP_errs heq] at hm
            exact hm
        · simp only [Option.some.injEq, Prod.mk.injEq] at heq₂
          rw [← heq₂.2, consumeP_errs heq]
      exact h₁
    · rename_i exprOpt st₂ heq₂
      have h₁ : st.errors <+: st₂.errors := by
        split at heq₂
        · split at heq₂
          · exact Option.noConfusion heq₂
          · rename_i heq₃
            simp only [Option.some.injEq, Prod.mk.injEq] at heq₂
            rw [← heq₂.2]
            have hm := ihE _ _ _ heq₃
            rw [consumeP_errs heq] at hm
            exact hm
          · rename_i heq₃
            simp only [Option.some.injEq, Prod.mk.injEq] at heq₂
            rw [← heq₂.2]
            have hm := ihE _ _ _ heq₃
            rw [consumeP_errs heq] at hm
            exact hm
        · simp only [Option.some.injEq, Prod.mk.injEq] at heq₂
          rw [← heq₂.2, consumeP_errs heq]
      simp only [Option.some.injEq, Prod.mk.injEq] at h
      rw [← h.2]
      split <;> exact h₁

/-- `parse_while_stmt` only extends the error list. -/
theorem mono_parseWhile (n : Nat) (ihE : MonoF (parseN n).parseExpression)
    (ihB : MonoF (parseN n).parseBlock) :
    MonoF (parseN (n + 1)).parseWhile := by
  intro st r st' h
  simp only [parseN] at h
  split at h
  · rename_i e st₁ heq
    simp only [Option.some.injEq, Prod.mk.injEq] at h
    rw [← h.2, consumeP_errs heq]
  · rename_i u st₁ heq
    split at h
    · exact Option.noConfusion h
    · rename_i e st₂ heq₂
      simp only [Option.some.injEq, Prod.mk.injEq] at h
      rw [← h.2]
      have hm := ihE _ _ _ heq₂
      rw [consumeP_errs heq] at hm
      exact hm
    · rename_i cond st₂ heq₂
      have h₁ : st.errors <+: st₂.errors := by
        have hm := ihE _ _ _ heq₂
        rw [consumeP_errs heq] at hm
        exact hm
      split at h
      · rename_i e st₃ heq₃
        simp only [Option.some.injEq, Prod.mk.injEq] at h
        rw [← h.2, consumeP_errs heq₃]
        exact h₁
      · rename_i u₂ st₃ heq₃
        split at h
        · exact Option.noConfusion h
        · rename_i e st₄ heq₄
          simp only [Option.some.injEq, Prod.mk.injEq] at h
          rw [← h.2]
          have hm := ihB _ _ _ heq₄
          rw [consumeP_errs heq₃] at hm
          exact h₁.trans hm
        · rename_i bodyStmts st₄ heq₄
          have h₂ : st.errors <+: st₄.errors := by
            have hm := ihB _ _ _ heq₄
            rw [consumeP_errs heq₃] at hm
            exact h₁.trans hm
          split at h <;>
            (rename_i heq₅;
             simp only [Option.some.injEq, Prod.mk.injEq] at h;
             rw [← h.2, consumeP_errs heq₅];
             exact h₂)

/-- The `elif` loop only extends the error list. -/
theorem mono_elifLoop (n : Nat) (ihE : MonoF (parseN n).parseExpression)
    (ihB : MonoF (parseN n).parseBlock)
    (ihL : MonoA (parseN n).parseElifLoop) :
    MonoA (parseN (n + 1)).parseElifLoop := by
  intro acc st r st' h
  simp only [parseN] at h
  split at h
  · split at h
    · exact Option.noConfusion h
    · rename_i e st₁ heq
      simp only [Option.some.injEq, Prod.mk.injEq] at h
      rw [← h.2]
      have hm := ihE _ _ _ heq
      exact hm
    · rename_i cond st₁ heq
      have h₁ : st.errors <+: st₁.errors := by
        have hm := ihE _ _ _ heq
        exact hm
      split at h
      · rename_i e st₂ heq₂
        simp only [Option.some.injEq, Prod.mk.injEq] at h
        rw [← h.2, consumeP_errs heq₂]
        exact h₁
      · rename_i u st₂ heq₂
        split at h
        · exact Option.noConfusion h
        · rename_i e st₃ heq₃
          simp only [Option.some.injEq, Prod.mk.injEq] at h
          rw [← h.2]
          have hm := ihB _ _ _ heq₃
          rw [consumeP_errs heq₂] at hm
          exact h₁.trans hm
        · rename_i blkStmts st₃ heq₃
          have h₂ : st.errors <+: st₃.errors := by
            have hm := ihB _ _ _ heq₃
            rw [consumeP_errs heq₂] at hm
            exact h₁.trans hm
          exact h₂.trans (ihL _ _ _ _ h)
  · simp only [Option.some.injEq, Prod.mk.injEq] at h
    rw [← h.2]

/-- `parse_if_stmt` only extends the error list. -/
theorem mono_parseIf (n : Nat) (ihE : MonoF (parseN n).parseExpression)
    (ihB : MonoF (parseN n).parseBlock)
    (ihL : MonoA (parseN n).parseElifLoop) :
    MonoF (parseN (n + 1)).parseIf := by
  intro st r st' h
  simp only [parseN] at h
  split at h
  · rename_i e st₁ heq
    simp only [Option.some.injEq, Prod.mk.injEq] at h
    rw [← h.2, consumeP_errs heq]
  · rename_i u st₁ heq
    split at h
    · exact Option.noConfusion h
    · rename_i e st₂ heq₂
      simp only [Option.some.injEq, Prod.mk.injEq] at h
      rw [← h.2]
      have hm := ihE _ _ _ heq₂
      rw [consumeP_errs heq] at hm
      exact hm
    · rename_i cond st₂ heq₂
      have h₁ : st.errors <+: st₂.errors := by
        have hm := ihE _ _ _ heq₂
        rw [consumeP_errs heq] at hm
        exact hm
      split at h
      · rename_i e st₃ heq₃
        simp only [Option.some.injEq, Prod.mk.injEq] at h
        rw [← h.2, consumeP_errs heq₃]
        exact h₁
      · rename_i u₂ st₃ heq₃
        split at h
        · exact Option.noConfusion h
        · rename_i e st₄ heq₄
          simp only [Option.some.injEq, Prod.mk.injEq] at h
          rw [← h.2]
          have hm := ihB _ _ _ heq₄
          rw [consumeP_errs heq₃] at hm
          exact h₁.trans hm
        · rename_i thenStmts st₄ heq₄
          have h₂ : st.errors <+: st₄.errors := by
            have hm := ihB _ _ _ heq₄
            rw [consumeP_errs heq₃] at hm
            exact h₁.trans hm
          split at h
          · exact Option.noConfusion h
          · rename_i e st₅ heq₅
            simp only [Option.some.injEq, Prod.mk.injEq] at h
            rw [← h.2]
            exact h₂.trans (ihL _ _ _ _ heq₅)
          · rename_i elifs st₅ heq₅
            have h₃ : st.errors <+: st₅.errors :=
              h₂.trans (ihL _ _ _ _ heq₅)
            split at h
            · exact Option.noConfusion h
            · rename_i e st₆ heq₆
              simp only [Option.some.injEq, Prod.mk.injEq] at h
              rw [← h.2]
              have h₄ : st₅.errors <+: st₆.errors := by
                split at heq₆
                · split at heq₆
                  · exact Option.noConfusion heq₆
                  · rename_i heq₇
                    simp only [Option.some.injEq, Prod.mk.injEq] at heq₆
                    rw [← heq₆.2]
                    have hm := ihB _ _ _ heq₇
                    exact hm
                  · rename_i heq₇
                    simp only [Option.some.injEq, Prod.mk.injEq] at heq₆
                    rw [← heq₆.2]
                    have hm := ihB _ _ _ heq₇
                    exact hm
                · simp only [Option.some.injEq, Prod.mk.injEq] at heq₆
                  rw [← heq₆.2]
              exact h₃.trans h₄
            · rename_i elseB st₆ heq₆
              have h₄ : st.errors <+: st₆.errors := by
                refine h₃.trans ?_
                split at heq₆
                · split at heq₆
                  · exact Option.noConfusion heq₆
                  · rename_i heq₇
                    simp only [Option.some.injEq, Prod.mk.injEq] at heq₆
                    rw [← heq₆.2]
                    have hm := ihB _ _ _ heq₇
                    exact hm
                  · rename_i heq₇
                    simp only [Option.some.injEq, Prod.mk.injEq] at heq₆
                    rw [← heq₆.2]
                    have hm := ihB _ _ _ heq₇
                    exact hm
                · simp only [Option.some.injEq, Prod.mk.injEq] at heq₆
                  rw [← heq₆.2]
              split at h <;>
                (rename_i heq₇;
                 simp only [Option.some.injEq, Prod.mk.injEq] at h;
                 rw [← h.2, consumeP_errs heq₇];
                 exact h₄)

/-- `parse_func_decl` only extends the error list. -/
theorem mono_parseFuncDecl (n : Nat) (ihP : MonoA (parseN n).parseParamsLoop)
    (ihB : MonoF (parseN n).parseBlock) :
    MonoF (parseN (n + 1)).parseFuncDecl := by
  intro st r st' h
  simp only [parseN] at h
  split at h
  · rename_i e st₁ heq
    simp only [Option.some.injEq, Prod.mk.injEq] at h
    rw [← h.2, consumeP_errs heq]
  · rename_i u st₁ heq
    split at h
    · split at h
      · rename_i e st₃ heq₂
        simp only [Option.some.injEq, Prod.mk.injEq] at h
        rw [← h.2, consumeP_errs heq₂, advanceP_errors, consumeP_errs heq]
      · rename_i u₂ st₃ heq₂
        split at h
        · exact Option.noConfusion h
        · rename_i e st₄ heq₃
          simp only [Option.some.injEq, Prod.mk.injEq] at h
          rw [← h.2]
          have h₁ : st.errors <+: st₄.errors := by
            split at heq₃
            · have hm := ihP _ _ _ _ heq₃
              rw [consumeP_errs heq₂, advanceP_errors, consumeP_errs heq] at hm
              exact hm
            · simp only [Option.some.injEq, Prod.mk.injEq] at heq₃
              rw [← heq₃.2, consumeP_errs heq₂, advanceP_errors, consumeP_errs heq]
          exact h₁
        · rename_i params st₄ heq₃
          have h₁ : st.errors <+: st₄.errors := by
            split at heq₃
            · have hm := ihP _ _ _ _ heq₃
              rw [consumeP_errs heq₂, advanceP_errors, consumeP_errs heq] at hm
              exact hm
            · simp only [Option.some.injEq, Prod.mk.injEq] at heq₃
              rw [← heq₃.2, consumeP_errs heq₂, advanceP_errors, consumeP_errs heq]
          split at h
          · rename_i e st₅ heq₄
            simp only [Option.some.injEq, Prod.mk.injEq] at h
            rw [← h.2, consumeP_errs heq₄]
            exact h₁
          · rename_i u₃ st₅ heq₄
            have h₂ : st.errors <+: st₅.errors := by
              rw [consumeP_errs heq₄]
              exact h₁
            split at h
            · rename_i e st₇ heq₅
              simp only [Option.some.injEq, Prod.mk.injEq] at h
              rw [← h.2, consumeP_errs heq₅]
              split <;> first | (split <;> exact h₂) | exact h₂
            · rename_i u₄ st₇ heq₅
              have h₃ : st.errors <+: st₇.errors := by
                rw [consumeP_errs heq₅]
                split <;> first | (split <;> exact h₂) | exact h₂
              split at h
              · exact Option.noConfusion h
              · rename_i e st₈ heq₆
                simp only [Option.some.injEq, Prod.mk.injEq] at h
                rw [← h.2]
                exact h₃.trans (ihB _ _ _ heq₆)
              · rename_i bodyStmts st₈ heq₆
                have h₄ : st.errors <+: st₈.errors :=
                  h₃.trans (ihB _ _ _ heq₆)
                split at h <;>
                  (rename_i heq₇;
                   simp only [Option.some.injEq, Prod.mk.injEq] at h;
                   rw [← h.2, consumeP_errs heq₇];
                   exact h₄)
    · simp only [Option.some.injEq, Prod.mk.injEq] at h
      rw [← h.2, consumeP_errs heq]

/-- `parse_event_decl` only extends the error list. -/
theorem mono_parseEventDecl (n : Nat) (ihP : MonoA (parseN n).parseParamsLoop)
    (ihB : MonoF (parseN n).parseBlock) :
    MonoF (parseN (n + 1)).parseEventDecl := by
  intro st r st' h
  simp only [parseN] at h
  split at h
  · rename_i e st₁ heq
    simp only [Option.some.injEq, Prod.mk.injEq] at h
    rw [← h.2, consumeP_errs heq]
  · rename_i u st₁ heq
    split at h
    · split at h
      · rename_i e st₃ heq₂
        simp only [Option.some.injEq, Prod.mk.injEq] at h
        rw [← h.2, consumeP_errs heq₂, advanceP_errors, consumeP_errs heq]
      · rename_i u₂ st₃ heq₂
        split at h
        · exact Option.noConfusion h
        · rename_i e st₄ heq₃
          simp only [Option.some.injEq, Prod.mk.injEq] at h
          rw [← h.2]
          have h₁ : st.errors <+: st₄.errors := by
            split at heq₃
            · have hm := ihP _ _ _ _ heq₃
              rw [consumeP_errs heq₂, advanceP_errors, consumeP_errs heq] at hm
              exact hm
            · simp only [Option.some.injEq, Prod.mk.injEq] at heq₃
              rw [← heq₃.2, consumeP_errs heq₂, advanceP_errors, consumeP_errs heq]
          exact h₁
        · rename_i params st₄ heq₃
          have h₁ : st.errors <+: st₄.errors := by
            split at heq₃
            · have hm := ihP _ _ _ _ heq₃
              rw [consumeP_errs heq₂, advanceP_errors, consumeP_errs heq] at hm
              exact hm
            · simp only [Option.some.injEq, Prod.mk.injEq] at heq₃
              rw [← heq₃.2, consumeP_errs heq₂, advanceP_errors, consumeP_errs heq]
          split at h
          · rename_i e st₅ heq₄
            simp only [Option.some.injEq, Prod.mk.injEq] at h
            rw [← h.2, consumeP_errs heq₄]
            exact h₁
          · rename_i u₃ st₅ heq₄
            have h₂ : st.errors <+: st₅.errors := by
              rw [consumeP_errs heq₄]
              exact h₁
            split at h
            · rename_i e st₆ heq₅
              simp only [Option.some.injEq, Prod.mk.injEq] at h
              rw [← h.2, consumeP_errs heq₅]
              exact h₂
            · rename_i u₄ st₆ heq₅
              have h₃ : st.errors <+: st₆.errors := by
                rw [consumeP_errs heq₅]
                exact h₂
              split at h
              · exact Option.noConfusion h
              · rename_i e st₇ heq₆
                simp only [Option.some.injEq, Prod.mk.injEq] at h
                rw [← h.2]
                exact h₃.trans (ihB _ _ _ heq₆)
              · rename_i bodyStmts st₇ heq₆
                have h₄ : st.errors <+: st₇.errors :=
                  h₃.trans (ihB _ _ _ heq₆)
                split at h <;>
                  (rename_i heq₇;
                   simp only [Option.some.injEq, Prod.mk.injEq] at h;
                   rw [← h.2, consumeP_errs heq₇];
                   exact h₄)
    · simp only [Option.some.injEq, Prod.mk.injEq] at h
      rw [← h.2, consumeP_errs heq]

/-- The object-member loop only extends the error list. -/
theorem mono_membersLoop (n : Nat) (ihV : MonoF (parseN n).parseVarDecl)
    (ihF : MonoF (parseN n).parseFuncDecl)
    (ihEv : MonoF (parseN n).parseEventDecl)
    (ihL : MonoA (parseN n).parseMembersLoop) :
    MonoA (parseN (n + 1)).parseMembersLoop := by
  intro acc st r st' h
  simp only [parseN] at h
  split at h
  · simp only [Option.some.injEq, Prod.mk.injEq] at h
    rw [← h.2]
  · split at h
    · split at h
      · exact Option.noConfusion h
      · rename_i e st₁ heq
        simp only [Option.some.injEq, Prod.mk.injEq] at h
        rw [← h.2]
        exact ihV _ _ _ heq
      · rename_i varStmt st₁ heq
        exact (ihV _ _ _ heq).trans (ihL _ _ _ _ h)
    · split at h
      · exact Option.noConfusion h
      · rename_i e st₁ heq
        simp only [Option.some.injEq, Prod.mk.injEq] at h
        rw [← h.2]
        exact ihF _ _ _ heq
      · rename_i f st₁ heq
        exact (ihF _ _ _ heq).trans (ihL _ _ _ _ h)
    · split at h
      · exact Option.noConfusion h
      · rename_i e st₁ heq
        simp only [Option.some.injEq, Prod.mk.injEq] at h
        rw [← h.2]
        exact ihEv _ _ _ heq
      · rename_i ev st₁ heq
        exact (ihEv _ _ _ heq).trans (ihL _ _ _ _ h)
    · simp only [Option.some.injEq, Prod.mk.injEq] at h
      rw [← h.2]

/-- `parse_object_decl` only extends the error list. -/
theorem mono_parseObjectDecl (n : Nat)
    (ihM : MonoA (parseN n).parseMembersLoop) :
    MonoF (parseN (n + 1)).parseObjectDecl := by
  intro st r st' h
  simp only [parseN] at h
  split at h
  · rename_i e st₁ heq
    simp only [Option.some.injEq, Prod.mk.injEq] at h
    rw [← h.2, consumeP_errs heq]
  · rename_i u st₁ heq
    split at h
    · split at h
      · rename_i e st₃ heq₂
        simp only [Option.some.injEq, Prod.mk.injEq] at h
        rw [← h.2, consumeP_errs heq₂, advanceP_errors, consumeP_errs heq]
      · rename_i u₂ st₃ heq₂
        split at h
        · rename_i e st₄ heq₃
          simp only [Option.some.injEq, Prod.mk.injEq] at h
          rw [← h.2, consumeP_errs heq₃, consumeP_errs heq₂, advanceP_errors,
            consumeP_errs heq]
        · rename_i u₃ st₄ heq₃
          split at h
          · exact Option.noConfusion h
          · rename_i e st₅ heq₄
            simp only [Option.some.injEq, Prod.mk.injEq] at h
            rw [← h.2]
            have hm := ihM _ _ _ _ heq₄
            rw [consumeP_errs heq₃, consumeP_errs heq₂, advanceP_errors,
              consumeP_errs heq] at hm
            exact hm
          · rename_i members st₅ heq₄
            have h₁ : st.errors <+: st₅.errors := by
              have hm := ihM _ _ _ _ heq₄
              rw [consumeP_errs heq₃, consumeP_errs heq₂, advanceP_errors,
                consumeP_errs heq] at hm
              exact hm
            split at h
            · rename_i e st₆ heq₅
              simp only [Option.some.injEq, Prod.mk.injEq] at h
              rw [← h.2, consumeP_errs heq₅]
              exact h₁
            · rename_i u₄ st₆ heq₅
              split at h <;>
                (rename_i heq₆;
                 simp only [Option.some.injEq, Prod.mk.injEq] at h;
                 rw [← h.2, consumeP_errs heq₆, consumeP_errs heq₅];
                 exact h₁)
    · simp only [Option.some.injEq, Prod.mk.injEq] at h
      rw [← h.2, consumeP_errs heq]

/-- `parse_statement` only extends the error list. -/
theorem mono_parseStatement (n : Nat) (ihV : MonoF (parseN n).parseVarDecl)
    (ihI : MonoF (parseN n).parseIf)
    (ihW : MonoF (parseN n).parseWhile)
    (ihR : MonoF (parseN n).parseReturn)
    (ihF : MonoF (parseN n).parseFuncDecl)
    (ihO : MonoF (parseN n).parseObjectDecl)
    (ihB : MonoF (parseN n).parseBlock)
    (ihE : MonoF (parseN n).parseExpression) :
    MonoF (parseN (n + 1)).parseStatement := by
  intro st r st' h
  simp only [parseN] at h
  split at h
  · exact ihV _ _ _ h
  · exact ihI _ _ _ h
  · exact ihW _ _ _ h
  · exact ihR _ _ _ h
  · split at h
    · exact Option.noConfusion h
    · rename_i e st₁ heq
      simp only [Option.some.injEq, Prod.mk.injEq] at h
      rw [← h.2]
      exact ihF _ _ _ heq
    · rename_i f st₁ heq
      simp only [Option.some.injEq, Prod.mk.injEq] at h
      rw [← h.2]
      exact ihF _ _ _ heq
  · split at h
    · exact Option.noConfusion h
    · rename_i e st₁ heq
      simp only [Option.some.injEq, Prod.mk.injEq] at h
      rw [← h.2]
      exact ihO _ _ _ heq
    · rename_i o st₁ heq
      simp only [Option.some.injEq, Prod.mk.injEq] at h
      rw [← h.2]
      exact ihO _ _ _ heq
  · split at h
    · exact Option.noConfusion h
    · rename_i e st₁ heq
      simp only [Option.some.injEq, Prod.mk.injEq] at h
      rw [← h.2]
      exact ihB _ _ _ heq
    · rename_i stmts st₁ heq
      simp only [Option.some.injEq, Prod.mk.injEq] at h
      rw [← h.2]
      exact ihB _ _ _ heq
  · split at h
    · exact Option.noConfusion h
    · rename_i e st₁ heq
      simp only [Option.some.injEq, Prod.mk.injEq] at h
      rw [← h.2]
      exact ihE _ _ _ heq
    · rename_i ex st₁ heq
      simp only [Option.some.injEq, Prod.mk.injEq] at h
      rw [← h.2]
      have h₁ := ihE _ _ _ heq
      split <;> exact h₁

/-- The top-level statement loop of `parse_program` only extends the error
list: a failed statement's error is appended before recovery and survives
every later iteration. -/
theorem mono_programLoop (n : Nat) (ihS : MonoF (parseN n).parseStatement)
    (ihSync : MonoEq (parseN n).synchronize)
    (ihL : MonoL (parseN n).parseProgramLoop) :
    MonoL (parseN (n + 1)).parseProgramLoop := by
  intro body st out st' h
  simp only [parseN] at h
  split at h
  · simp only [Option.some.injEq, Prod.mk.injEq] at h
    rw [← h.2]
  · split at h
    · exact Option.noConfusion h
    · rename_i s st₁ heq
      exact (ihS _ _ _ heq).trans (by have hm := ihL _ _ _ _ h; exact hm)
    · rename_i e st₁ heq
      split at h
      · exact Option.noConfusion h
      · rename_i st₃ heq₂
        have ha := ihS _ _ _ heq
        have hc := ihSync _ _ heq₂
        have hd := ihL _ _ _ _ h
        rw [hc] at hd
        exact ha.trans ((List.prefix_append _ _).trans hd)

/-- Bundle of the error-monotonicity facts for one fuel level. -/
structure ParserMono (P : ParserFns) : Prop where
  programLoop : MonoL P.parseProgramLoop
  sync : MonoEq P.synchronize
  syncLoop : MonoEq P.syncLoop
  statement : MonoF P.parseStatement
  varDecl : MonoF P.parseVarDecl
  blockP : MonoF P.parseBlock
  blockLoop : MonoL P.parseBlockLoop
  ifP : MonoF P.parseIf
  elifLoop : MonoA P.parseElifLoop
  whileP : MonoF P.parseWhile
  returnP : MonoF P.parseReturn
  funcDecl : MonoF P.parseFuncDecl
  paramsLoop : MonoA P.parseParamsLoop
  objectDecl : MonoF P.parseObjectDecl
  membersLoop : MonoA P.parseMembersLoop
  eventDecl : MonoF P.parseEventDecl
  tableLiteral : MonoF P.parseTableLiteral
  fieldsLoop : MonoA P.parseFieldsLoop
  expressionP : MonoF P.parseExpression
  orP : MonoF P.parseOr
  orLoop : MonoA P.parseOrLoop
  andP : MonoF P.parseAnd
  andLoop : MonoA P.parseAndLoop
  equalityP : MonoF P.parseEquality
  equalityLoop : MonoA P.parseEqualityLoop
  comparisonP : MonoF P.parseComparison
  comparisonLoop : MonoA P.parseComparisonLoop
  termP : MonoF P.parseTerm
  termLoop : MonoA P.parseTermLoop
  factorP : MonoF P.parseFactor
  factorLoop : MonoA P.parseFactorLoop
  unaryP : MonoF P.parseUnary
  primaryP : MonoF P.parsePrimary
  postfixLoop : MonoA P.parsePostfixLoop
  argsLoop : MonoA P.parseArgsLoop

/-- Every fuel level of the parser only appends to the error list. -/
theorem parserMono : ∀ fuel, ParserMono (parseN fuel) := by
  intro fuel
  induction fuel with
  | zero =>
      constructor <;> simp [MonoF, MonoA, MonoL, MonoEq, parseN, parserNone]
  | succ n ih =>
      exact ⟨mono_programLoop n ih.statement ih.sync ih.programLoop,
        mono_sync n ih.syncLoop,
        mono_syncLoop n ih.syncLoop,
        mono_parseStatement n ih.varDecl ih.ifP ih.whileP ih.returnP
          ih.funcDecl ih.objectDecl ih.blockP ih.expressionP,
        mono_parseVarDecl n ih.expressionP,
        mono_parseBlock n ih.blockLoop,
        mono_blockLoop n ih.statement ih.sync ih.blockLoop,
        mono_parseIf n ih.expressionP ih.blockP ih.elifLoop,
        mono_elifLoop n ih.expressionP ih.blockP ih.elifLoop,
        mono_parseWhile n ih.expressionP ih.blockP,
        mono_parseReturn n ih.expressionP,
        mono_parseFuncDecl n ih.paramsLoop ih.blockP,
        mono_paramsLoop n ih.paramsLoop,
        mono_parseObjectDecl n ih.membersLoop,
        mono_membersLoop n ih.varDecl ih.funcDecl ih.eventDecl ih.membersLoop,
        mono_parseEventDecl n ih.paramsLoop ih.blockP,
        mono_parseTableLiteral n ih.fieldsLoop,
        mono_fieldsLoop n ih.expressionP ih.fieldsLoop,
        mono_parseExpression n ih.orP,
        mono_parseOr n ih.andP ih.orLoop,
        mono_orLoop n ih.andP ih.orLoop,
        mono_parseAnd n ih.equalityP ih.andLoop,
        mono_andLoop n ih.equalityP ih.andLoop,
        mono_parseEquality n ih.comparisonP ih.equalityLoop,
        mono_equalityLoop n ih.comparisonP ih.equalityLoop,
        mono_parseComparison n ih.termP ih.comparisonLoop,
        mono_comparisonLoop n ih.termP ih.comparisonLoop,
        mono_parseTerm n ih.factorP ih.termLoop,
        mono_termLoop n ih.factorP ih.termLoop,
        mono_parseFactor n ih.unaryP ih.factorLoop,
        mono_factorLoop n ih.unaryP ih.factorLoop,
        mono_parseUnary n ih.unaryP ih.primaryP,
        mono_parsePrimary n ih.expressionP ih.tableLiteral ih.postfixLoop,
        mono_postfixLoop n ih.expressionP ih.argsLoop ih.postfixLoop,
        mono_argsLoop n ih.expressionP ih.argsLoop⟩

/-! ## Claim theorems -/

/-- C1 (refuting the claim as stated): `break` and `continue` are NOT
distinct unwind signals in the source. `Stmt::Break` evaluates to
`Some(Value::Nil)` on the same channel as `return`, and the loops only
special-case a body that is literally a bare `Stmt::Break`, which parsed
programs never have (loop bodies are blocks). Hence in `breakProg` the
`break` inside the while-body block is propagated to the call site as the
function's return value — `r` ends up `Nil` instead of `1` — and in
`continueProg`, `continue` does not skip the rest of the body, so the
`return 99` after it still runs and `r` ends up `99` instead of `0`. -/
theorem claim_C1_break_continue_not_distinct_signals :
    finalBinding 32 breakProg "r" = some Value.nil ∧
    finalBinding 32 breakProg "r" ≠ some (Value.int 1) ∧
    finalBinding 32 continueProg "r" = some (Value.int 99) ∧
    finalBinding 32 continueProg "r" ≠ some (Value.int 0) := by
  refine ⟨rfl, ?_, rfl, ?_⟩
  · intro h
    have hnil : finalBinding 32 breakProg "r" = some Value.nil := rfl
    exact Value.noConfusion (Option.some.inj (hnil.symm.trans h))
  · intro h
    have h99 : finalBinding 32 continueProg "r" = some (Value.int 99) := rfl
    have := Option.some.inj (h99.symm.trans h)
    simp only [Value.int.injEq] at this
    exact absurd this (by decide)

/-- C2 (refuting the claim as stated): `and`/`or` do not short-circuit.
`Expr::Binary` evaluates both operands before `apply_binary` runs, so
`false and (1 / 0 == 0)` and `true or (1 / 0)` raise "division by zero"
even though the left operand already decides the result. -/
theorem claim_C2_and_or_do_not_short_circuit :
    (evalN 8).evalExpr andRightErrExpr Environment.new =
      some (.error (RuntimeError.new "division by zero"), Environment.new) ∧
    (evalN 8).evalExpr orRightErrExpr Environment.new =
      some (.error (RuntimeError.new "division by zero"), Environment.new) :=
  ⟨rfl, rfl⟩

/-- C3 (refuting the claim as stated): the caller's environment is NOT
restored when the callee's body raises a RuntimeError. In `errorCallProg`
the caller's environment before the call binds `f`; `eval_call` swaps in
the call environment and propagates the body's error with `?` before the
restore line, so after the failed run `self.env` is the call environment
(empty own map, parent = the captured root environment), in which `f` is
no longer reachable — unlike the caller's environment, which binds `f`. -/
theorem claim_C3_env_not_restored_on_error :
    Interpreter.evalProgram 32 errorCallProg Interpreter.initialEnv =
      some (.error (RuntimeError.new "Undefined identifier \x27nosuch\x27"),
        Environment.mk [] (some Interpreter.initialEnv)) ∧
    (Environment.mk [] (some Interpreter.initialEnv)).get "f" = none ∧
    (Interpreter.initialEnv.define "f" errorCallFVal).get "f" =
      some errorCallFVal :=
  ⟨rfl, rfl, rfl⟩

/-- C4 (refuting the claim as stated): `parse_statement` has no cases for
`KwFor`, `KwBreak` or `KwContinue`; these tokens fall through to
expression parsing, where `parse_primary` rejects them. So `break ;`,
`continue ;` and a `for` statement all produce a ParseError instead of
`Stmt::Break` / `Stmt::Continue` / `Stmt::For`. -/
theorem claim_C4_parser_rejects_for_break_continue :
    parseResult 64 "break ;" = some (.error
      [⟨1, 1, "unexpected token in primary expression: KwBreak"⟩]) ∧
    parseResult 64 "continue ;" = some (.error
      [⟨1, 1, "unexpected token in primary expression: KwContinue"⟩]) ∧
    parseResult 64 "for i = 1 to 5 do end" = some (.error
      [⟨1, 1, "unexpected token in primary expression: KwFor"⟩]) :=
  ⟨rfl, rfl, rfl⟩

/-- C5: division or modulo with a zero right operand — `Int 0` or
`Float 0.0`, against any left operand whatsoever — always returns a
RuntimeError and never a value (so never an infinity or NaN, which the
embedding's error-first checks indeed never compute); numeric left
operands get the specific "division by zero" / "modulo by zero" messages,
and the expression-level forms `1 / 0`, `1 % 0`, `1.0 / 0.0`, `1.0 % 0.0`
all evaluate to those errors. -/
theorem claim_C5_div_mod_by_zero_always_error :
    (∀ l : Value,
      (∃ er, div l (.int 0) = .error er) ∧
      (∃ er, div l (.float 0) = .error er) ∧
      (∃ er, modulo l (.int 0) = .error er) ∧
      (∃ er, modulo l (.float 0) = .error er)) ∧
    (∀ a : Int,
      div (.int a) (.int 0) = .error (RuntimeError.new "division by zero") ∧
      modulo (.int a) (.int 0) = .error (RuntimeError.new "modulo by zero")) ∧
    (∀ a : Rat,
      div (.float a) (.float 0) = .error (RuntimeError.new "division by zero") ∧
      div (.float a) (.int 0) = .error (RuntimeError.new "division by zero") ∧
      modulo (.float a) (.float 0) = .error (RuntimeError.new "modulo by zero") ∧
      modulo (.float a) (.int 0) = .error (RuntimeError.new "modulo by zero")) ∧
    (evalN 8).evalExpr (.binary (.literal (.int 1)) .div (.literal (.int 0)))
        Environment.new =
      some (.error (RuntimeError.new "division by zero"), Environment.new) ∧
    (evalN 8).evalExpr (.binary (.literal (.int 1)) .mod (.literal (.int 0)))
        Environment.new =
      some (.error (RuntimeError.new "modulo by zero"), Environment.new) ∧
    (evalN 8).evalExpr (.binary (.literal (.float 1)) .div (.literal (.float 0)))
        Environment.new =
      some (.error (RuntimeError.new "division by zero"), Environment.new) ∧
    (evalN 8).evalExpr (.binary (.literal (.float 1)) .mod (.literal (.float 0)))
        Environment.new =
      some (.error (RuntimeError.new "modulo by zero"), Environment.new) := by
  refine ⟨fun l => ?_, fun a => ⟨rfl, rfl⟩, fun a => ⟨rfl, rfl, rfl, rfl⟩,
    rfl, rfl, rfl, rfl⟩
  cases l <;> exact ⟨⟨_, rfl⟩, ⟨_, rfl⟩, ⟨_, rfl⟩, ⟨_, rfl⟩⟩

/-- C6: the closure program yields `r == 15` — the closure of `g`
(captured when `g`'s declaration is evaluated inside `f`'s call
environment) keeps `x` reachable after `f` has returned — and in general
`Stmt::FuncDecl` captures exactly the environment current at the moment
the declaration is evaluated, not the environment of any later call. -/
theorem claim_C6_closure_captured_at_declaration :
    finalBinding 32 closureProg "r" = some (Value.int 15) ∧
    (∀ (fuel : Nat) (f : FuncDecl) (env : Environment),
      (evalN (fuel + 1)).evalStmt (.funcDecl f) env =
        some (.ok none, env.define f.name (.function f (some env)))) :=
  ⟨rfl, fun _ _ _ => rfl⟩

/-- C7: after `var x = 1; { var x = 2; }` the outer `x` is still `1`, and
in general evaluating any block leaves the interpreter's environment
exactly as it was before the block, whatever happens inside — an inner
`var` defines its name only in the discarded block environment. -/
theorem claim_C7_block_shadowing_preserves_outer :
    finalBinding 16 shadowProg "x" = some (Value.int 1) ∧
    (∀ (fuel : Nat) (stmts : List Stmt) (env : Environment)
      (r : Except RuntimeError (Option Value)) (env' : Environment),
      (evalN fuel).evalStmt (.block stmts) env = some (r, env') → env' = env) :=
  ⟨rfl, block_env_restored⟩

/-- Witness for C7: a concrete block evaluation satisfying the general
conjunct's hypothesis, with the conclusion instantiated there. -/
theorem claim_C7_witness :
    (evalN 3).evalStmt (.block [.varDecl "y" (.literal (.int 2))])
        Environment.new = some (.ok none, Environment.new) ∧
    Environment.new = Environment.new :=
  ⟨rfl, claim_C7_block_shadowing_preserves_outer.2 3
    [.varDecl "y" (.literal (.int 2))] Environment.new (.ok none)
    Environment.new rfl⟩

/-- C8: table access versus environment lookup. For a table-valued object
expression: member access on an absent key is `Nil` (never an error),
index access with a string key on an absent key is `Nil`, index access
with a non-String index is the "table index must be a string"
RuntimeError; member or index access on a non-table value is a
RuntimeError; and an identifier absent from the whole environment chain is
the "Undefined identifier" RuntimeError. -/
theorem claim_C8_table_access_vs_env_lookup (fuel : Nat) (e ie : Expr)
    (k : String) (env env₁ env₂ : Environment) :
    (∀ entries,
      (evalN (fuel + 1)).evalExpr e env = some (.ok (.table entries), env₁) →
      lookupA entries k = none →
      (evalN (fuel + 1 + 1)).evalExpr (.member e k) env = some (.ok .nil, env₁)) ∧
    (∀ entries,
      (evalN (fuel + 1)).evalExpr e env = some (.ok (.table entries), env₁) →
      lookupA entries k = none →
      (evalN (fuel + 1 + 1)).evalExpr (.index e (.literal (.str k))) env =
        some (.ok .nil, env₁)) ∧
    (∀ entries iv,
      (evalN (fuel + 1)).evalExpr e env = some (.ok (.table entries), env₁) →
      (evalN (fuel + 1)).evalExpr ie env₁ = some (.ok iv, env₂) →
      (∀ s, iv ≠ .str s) →
      (evalN (fuel + 1 + 1)).evalExpr (.index e ie) env =
        some (.error (RuntimeError.new "table index must be a string"), env₂)) ∧
    (∀ ov,
      (evalN (fuel + 1)).evalExpr e env = some (.ok ov, env₁) →
      (∀ entries, ov ≠ .table entries) →
      (evalN (fuel + 1 + 1)).evalExpr (.member e k) env =
        some (.error (RuntimeError.new
          ("cannot access member \x27" ++ k ++ "\x27 on non-table")), env₁)) ∧
    (∀ ov iv,
      (evalN (fuel + 1)).evalExpr e env = some (.ok ov, env₁) →
      (evalN (fuel + 1)).evalExpr ie env₁ = some (.ok iv, env₂) →
      (∀ entries, ov ≠ .table entries) →
      (evalN (fuel + 1 + 1)).evalExpr (.index e ie) env =
        some (.error (RuntimeError.new "cannot index non-table"), env₂)) ∧
    (env.get k = none →
      (evalN (fuel + 1)).evalExpr (.ident k) env =
        some (.error (RuntimeError.new
          ("Undefined identifier \x27" ++ k ++ "\x27")), env)) := by
  refine ⟨?_, ?_, ?_, ?_, ?_, ?_⟩
  · intro entries h hlk
    simp only [evalExpr_member_step, h, hlk, Option.getD_none]
  · intro entries h hlk
    simp only [evalExpr_index_step, h, evalExpr_literal_step, evalLiteral,
      hlk, Option.getD_none]
  · intro entries iv h hiv hns
    cases iv with
    | str s => exact absurd rfl (hns s)
    | int i => simp only [evalExpr_index_step, h, hiv]
    | float f => simp only [evalExpr_index_step, h, hiv]
    | bool b => simp only [evalExpr_index_step, h, hiv]
    | function d c => simp only [evalExpr_index_step, h, hiv]
    | table t => simp only [evalExpr_index_step, h, hiv]
    | builtinFunction b => simp only [evalExpr_index_step, h, hiv]
    | nil => simp only [evalExpr_index_step, h, hiv]
  · intro ov h hnt
    cases ov with
    | table t => exact absurd rfl (hnt t)
    | int i => simp only [evalExpr_member_step, h]
    | float f => simp only [evalExpr_member_step, h]
    | bool b => simp only [evalExpr_member_step, h]
    | str s => simp only [evalExpr_member_step, h]
    | function d c => simp only [evalExpr_member_step, h]
    | builtinFunction b => simp only [evalExpr_member_step, h]
    | nil => simp only [evalExpr_member_step, h]
  · intro ov iv h hiv hnt
    cases ov with
    | table t => exact absurd rfl (hnt t)
    | int i => simp only [evalExpr_index_step, h, hiv]
    | float f => simp only [evalExpr_index_step, h, hiv]
    | bool b => simp only [evalExpr_index_step, h, hiv]
    | str s => simp only [evalExpr_index_step, h, hiv]
    | function d c => simp only [evalExpr_index_step, h, hiv]
    | builtinFunction b => simp only [evalExpr_index_step, h, hiv]
    | nil => simp only [evalExpr_index_step, h, hiv]
  · intro hget
    simp only [evalExpr_ident_step, hget]

/-- Witness for C8: the table literal `{x: 10}` evaluated concretely, with
each access form of the claim instantiated: `t.z` is `Nil`, `t["z"]` is
`Nil`, `t[0]` errors, `(1).z` errors, `1[0]` errors, and a lookup of an
unbound identifier errors. -/
theorem claim_C8_witness :
    (evalN 4).evalExpr
        (.member (.tableLiteral [.keyValue "x" (.literal (.int 10))]) "z")
        Environment.new = some (.ok .nil, Environment.new) ∧
    (evalN 4).evalExpr
        (.index (.tableLiteral [.keyValue "x" (.literal (.int 10))])
          (.literal (.str "z")))
        Environment.new = some (.ok .nil, Environment.new) ∧
    (evalN 4).evalExpr
        (.index (.tableLiteral [.keyValue "x" (.literal (.int 10))])
          (.literal (.int 0)))
        Environment.new =
      some (.error (RuntimeError.new "table index must be a string"),
        Environment.new) ∧
    (evalN 4).evalExpr (.member (.literal (.int 1)) "z") Environment.new =
      some (.error (RuntimeError.new
        "cannot access member \x27z\x27 on non-table"), Environment.new) ∧
    (evalN 4).evalExpr (.index (.literal (.int 1)) (.literal (.int 0)))
        Environment.new =
      some (.error (RuntimeError.new "cannot index non-table"),
        Environment.new) ∧
    (evalN 3).evalExpr (.ident "ghost") Environment.new =
      some (.error (RuntimeError.new "Undefined identifier \x27ghost\x27"),
        Environment.new) := by
  have h := claim_C8_table_access_vs_env_lookup 2
    (.tableLiteral [.keyValue "x" (.literal (.int 10))]) (.literal (.int 0))
    "z" Environment.new Environment.new Environment.new
  have h2 := claim_C8_table_access_vs_env_lookup 2 (.literal (.int 1))
    (.literal (.int 0)) "z" Environment.new Environment.new Environment.new
  have h3 := claim_C8_table_access_vs_env_lookup 2 (.literal (.int 1))
    (.literal (.int 0)) "ghost" Environment.new Environment.new Environment.new
  refine ⟨h.1 [("x", .int 10)] rfl rfl, h.2.1 [("x", .int 10)] rfl rfl,
    h.2.2.1 [("x", .int 10)] (.int 0) rfl rfl (fun s => Value.noConfusion),
    h2.2.2.2.1 (.int 1) rfl (fun entries => Value.noConfusion),
    h2.2.2.2.2.1 (.int 1) (.int 0) rfl rfl (fun entries => Value.noConfusion),
    h3.2.2.2.2.2 rfl⟩

/-- C9: parse errors are accumulated with recovery and no partial AST
escapes. Concretely, `func bad( { var b = 2; var c = 3;` produces exactly
one ParseError (at the `{` where a parameter name was expected) and no
`Program`, the parser having recovered and parsed the two `var`
declarations after it. In general `parse_program` returns `Ok` exactly
when the accumulated error list is empty — on `Ok` the state's list is
empty, and a returned `Err` list is never empty — and the top-level
statement loop only ever appends to the error list, so an error recorded
for any failed statement survives to that final decision. -/
theorem claim_C9_parse_errors_accumulated :
    (parseResult 64 "func bad( \x7b var b = 2; var c = 3;" =
      some (.error [⟨1, 11, "expected parameter name"⟩])) ∧
    (∀ (fuel : Nat) (st : ParserState) (res : Except (List ParseError) Program)
        (st' : ParserState),
        (parseN fuel).parseProgram st = some (res, st') →
        (∀ p, res = .ok p → st'.errors = []) ∧
        (∀ es, res = .error es → es ≠ [])) ∧
    (∀ (fuel : Nat) (body : List Stmt) (st : ParserState)
        (out : List Stmt) (st₁ : ParserState),
        (parseN fuel).parseProgramLoop body st = some (out, st₁) →
        st.errors <+: st₁.errors) := by
  refine ⟨rfl, ?_, fun fuel => (parserMono fuel).programLoop⟩
  intro fuel st res st' h
  match fuel with
  | 0 => simp [parseN, parserNone] at h
  | n + 1 =>
    rw [parseProgram_step] at h
    split at h
    · exact Option.noConfusion h
    · split at h
      · rename_i he
        simp only [Option.some.injEq, Prod.mk.injEq] at h
        refine ⟨fun q hq => ?_, fun es hes => ?_⟩
        · rw [← h.2]
          exact he
        · rw [← h.1] at hes
          exact absurd hes (by simp)
      · rename_i he
        simp only [Option.some.injEq, Prod.mk.injEq] at h
        refine ⟨fun q hq => ?_, fun es hes => ?_⟩
        · rw [← h.1] at hq
          exact absurd hq (by simp)
        · rw [← h.1] at hes
          simp only [Except.error.injEq] at hes
          rw [← hes]
          exact he

/-- Witness for C9: the error-free source `1;` — `parse_program` returns
its `Program` and the loop and decision conjuncts instantiate on it. -/
theorem claim_C9_witness :
    ((parseN 16).parseProgram (Parser.new (Lexer.new "1;")) =
      some (.ok ⟨[.expr (.literal (.int 1))]⟩,
        ⟨⟨[], 1, 3⟩, ⟨.eof, "", 1, 3⟩, []⟩)) ∧
    (ParserState.mk ⟨[], 1, 3⟩ ⟨.eof, "", 1, 3⟩ []).errors = [] ∧
    ((parseN 16).parseProgramLoop [] (Parser.new (Lexer.new "1;")) =
      some ([.expr (.literal (.int 1))],
        ⟨⟨[], 1, 3⟩, ⟨.eof, "", 1, 3⟩, []⟩)) ∧
    (Parser.new (Lexer.new "1;")).errors <+:
      (ParserState.mk ⟨[], 1, 3⟩ ⟨.eof, "", 1, 3⟩ []).errors :=
  ⟨by rfl,
   (claim_C9_parse_errors_accumulated.2.1 16 (Parser.new (Lexer.new "1;"))
      _ _ (by rfl)).1 _ rfl,
   by rfl,
   claim_C9_parse_errors_accumulated.2.2 16 [] (Parser.new (Lexer.new "1;"))
      _ _ (by rfl)⟩

/-- C10 (the claim's final clause fails on error exits): a successful
assignment evaluates the right-hand side and then `define`s the name in
the current (innermost) environment, `define` never touches the parent
chain, the binding is discarded when an enclosing block exits, and on a
*successful* call exit `eval_call` likewise gives back the caller-side
environment, so the binding is discarded then too. But the claim says the
binding is discarded when the call exits, with no qualification — and
running `c10Prog` (`func f(): \x7b x = 5; nosuch; \x7d end f();`), the
binding `x = 5` created by the assignment inside `f`'s body is still
installed after `f`'s call has exited with a RuntimeError, because
`eval_call` propagates the body's error with `?` before the restore:
`x` is unbound in the caller's environment before the call and bound to
Int 5 in the environment the failed run leaves behind. -/
theorem claim_C10_assignment_innermost_not_discarded_on_call_error :
    (∀ (fuel : Nat) (name : String) (e : Expr) (env : Environment)
      (r : Option Value) (env' : Environment),
      (evalN (fuel + 1)).evalStmt (.assignment name e) env = some (.ok r, env') →
      ∃ v env₁, (evalN fuel).evalExpr e env = some (.ok v, env₁) ∧
        env' = env₁.define name v ∧ r = none) ∧
    (∀ (env : Environment) (name : String) (v : Value),
      (env.define name v).parent = env.parent) ∧
    (∀ (fuel : Nat) (stmts : List Stmt) (env : Environment)
      (r : Except RuntimeError (Option Value)) (env' : Environment),
      (evalN fuel).evalStmt (.block stmts) env = some (r, env') → env' = env) ∧
    (∀ (fuel : Nat) (callee : Expr) (args : List Expr)
      (env env₁ : Environment) (decl : FuncDecl)
      (closure : Option Environment) (v : Value) (env' : Environment),
      (evalN fuel).evalExpr callee env =
        some (.ok (.function decl closure), env₁) →
      (evalN (fuel + 1)).evalCall callee args env = some (.ok v, env') →
      ∃ callVals envA,
        bindParams (evalN fuel).evalExpr decl.params args env₁ [] =
          some (.ok callVals, envA) ∧ env' = envA) ∧
    (Interpreter.evalProgram 32 c10Prog Interpreter.initialEnv =
      some (.error (RuntimeError.new "Undefined identifier \x27nosuch\x27"),
        Environment.mk [("x", Value.int 5)] (some Interpreter.initialEnv))) ∧
    ((Environment.mk [("x", Value.int 5)]
        (some Interpreter.initialEnv)).get "x" = some (Value.int 5)) ∧
    ((Interpreter.initialEnv.define "f" c10FVal).get "x" = none) := by
  refine ⟨?_, define_parent, block_env_restored, ?_, rfl, rfl, rfl⟩
  · intro fuel name e env r env' h
    rw [evalStmt_assignment_step] at h
    cases he : (evalN fuel).evalExpr e env with
    | none => rw [he] at h; exact absurd h (by simp)
    | some p =>
      obtain ⟨res, env₁⟩ := p
      rw [he] at h
      match res with
      | .error er => exact absurd h (by simp)
      | .ok v =>
          simp only [Option.some.injEq, Prod.mk.injEq, Except.ok.injEq] at h
          exact ⟨v, env₁, rfl, h.2.symm, h.1.symm⟩
  · intro fuel callee args env env₁ decl closure v env' hc h
    simp only [evalCall_step, hc] at h
    split at h
    · exact absurd h (by simp)
    · exact absurd h (by simp)
    · rename_i callVals envA hb
      split at h
      · exact absurd h (by simp)
      · exact absurd h (by simp)
      · simp only [Option.some.injEq, Prod.mk.injEq, Except.ok.injEq] at h
        exact ⟨callVals, envA, hb, h.2.symm⟩

/-- Witness for C10: the assignment `x = 1` in an environment whose parent
already binds `x` lands in the innermost map with the parent untouched
(first conjunct), and a successful call of the parameterless `f` with an
empty body gives back the caller-side environment unchanged (fourth
conjunct) — both obtained by applying the claim theorem at these concrete
inputs. -/
theorem claim_C10_witness :
    ((evalN 2).evalStmt (.assignment "x" (.literal (.int 1)))
        (Environment.mk [] (some (Environment.mk [("x", Value.int 7)] none))) =
      some (.ok none, Environment.mk [("x", Value.int 1)]
        (some (Environment.mk [("x", Value.int 7)] none)))) ∧
    (∃ v env₁,
      (evalN 1).evalExpr (.literal (.int 1))
          (Environment.mk [] (some (Environment.mk [("x", Value.int 7)] none))) =
        some (.ok v, env₁) ∧
      (Environment.mk [("x", Value.int 1)]
          (some (Environment.mk [("x", Value.int 7)] none))) =
        env₁.define "x" v ∧ (none : Option Value) = none) ∧
    ((evalN 1).evalExpr (.ident "f") c10CallEnv =
      some (.ok (.function (.mk "f" [] (.block []))
        (some (Environment.mk [] none))), c10CallEnv)) ∧
    ((evalN 2).evalCall (.ident "f") [] c10CallEnv =
      some (.ok .nil, c10CallEnv)) ∧
    (∃ callVals envA,
      bindParams (evalN 1).evalExpr [] [] c10CallEnv [] =
        some (.ok callVals, envA) ∧ c10CallEnv = envA) :=
  ⟨rfl,
   claim_C10_assignment_innermost_not_discarded_on_call_error.1 1 "x"
     (.literal (.int 1))
     (Environment.mk [] (some (Environment.mk [("x", Value.int 7)] none)))
     none (Environment.mk [("x", Value.int 1)]
       (some (Environment.mk [("x", Value.int 7)] none))) rfl,
   rfl, rfl,
   claim_C10_assignment_innermost_not_discarded_on_call_error.2.2.2.1 1
     (.ident "f") [] c10CallEnv c10CallEnv (.mk "f" [] (.block []))
     (some (Environment.mk [] none)) .nil c10CallEnv rfl rfl⟩

end ArcScript
